import Mathlib

/-!
Verification of the session-scoped recommendation feed engine of the
sommelier-ai repository (`backend/api/recommender.py`).

The Python engine is shallowly embedded: database tables become lists of
typed rows, SQL upserts become list transformations, every state-changing
API call becomes a function `DB → … → Except Err DB` (a raised exception
is an `Except.error`, matching the code's rollback-on-exception), and the
pure scoring/selection helpers become functions over `ℝ`.  Python floats
are modelled as real numbers; `math.log` becomes `Real.log`, which is why
score-carrying definitions are `noncomputable`.
-/

namespace Sommelier

abbrev Sku := String
abbrev SessionId := ℕ

/-- Budget enum (`Budget` in `api/models.py`, values used by `get_budget_range`). -/
inductive Budget
  | low
  | medium
  | high
  | premium
deriving DecidableEq

/-- Style enum (`Style`): light / moderate / intense. -/
inductive Style
  | light
  | moderate
  | intense
deriving DecidableEq

/-- Drink-type enum (`DrinkType`), one constructor per variant used by the engine. -/
inductive DrinkType
  | wine_red
  | wine_white
  | wine_rose
  | sparkling
  | spirits
  | beer
  | mixed
deriving DecidableEq

/-- Quiz answers (`QuizAnswers`).  The `occasion` enum is opaque to the engine
(it is stored and re-read but never inspected by any scoring or filtering
code), so it is kept as a plain string. -/
structure QuizAnswers where
  occasion : String
  style : Style
  drink_type : DrinkType
  people_count : ℕ
  budget : Budget
deriving DecidableEq

/-- The three keys of `attrs_json` that the engine reads:
"Цвет" (color), "Сорт винограда" (grape), "Содержание сахара" (sugar). -/
structure Attrs where
  color : Option String
  grape : Option String
  sugar : Option String
deriving DecidableEq

/-- A row of the `products` table, with the columns `recommender.py` reads.
Nullable SQL columns are `Option`s. -/
structure ProductRow where
  sku : Sku
  name : String
  price_current : Option ℝ
  country : Option String
  producer : Option String
  volume_l : Option ℝ
  abv_percent : Option ℝ
  category_path : Option String
  image_urls : List String
  rating_value : Option ℝ
  rating_count : Option ℕ
  availability_status : String
  attrs_json : Option Attrs

/-- The `Product` response model built by `_to_product_model`. -/
structure Product where
  sku : Sku
  name : String
  price_current : ℝ
  country : Option String
  producer : Option String
  volume_l : Option ℝ
  abv_percent : Option ℝ
  category_path : Option String
  image_urls : List String
  rating_value : Option ℝ
  rating_count : Option ℕ
  relevance_score : ℝ

noncomputable instance : DecidableEq ProductRow := Classical.decEq _

noncomputable instance : DecidableEq Product := Classical.decEq _

/-- Scoring weight map restricted to the six keys the engine reads
(`weights.get("price", 0)` etc.). -/
structure Weights where
  price : ℝ
  abv : ℝ
  category : ℝ
  rating : ℝ
  popularity : ℝ
  behavior : ℝ

/-- Embeds `DEFAULT_WEIGHTS` from `recommender.py`. -/
noncomputable def DEFAULT_WEIGHTS : Weights :=
  ⟨0.25, 0.2, 0.2, 0.2, 0.05, 0.1⟩

/-- A caller-supplied partial override of the weight map (`weights_override`). -/
structure WeightsOverride where
  price : Option ℝ
  abv : Option ℝ
  category : Option ℝ
  rating : Option ℝ
  popularity : Option ℝ
  behavior : Option ℝ

/-- Embeds `weights = {**DEFAULT_WEIGHTS}; weights.update(weights_override)`. -/
noncomputable def mergeWeights (base : Weights) (o : WeightsOverride) : Weights :=
  ⟨o.price.getD base.price, o.abv.getD base.abv, o.category.getD base.category,
   o.rating.getD base.rating, o.popularity.getD base.popularity,
   o.behavior.getD base.behavior⟩

/-- Preference profile built by `_build_preferences`.  Python's sets are
lists here; only membership is ever used. -/
structure Preferences where
  top_countries : List String
  top_producers : List String
  colors : List String
  grapes : List String
  sugars : List String
  price_median : Option ℝ
  abv_median : Option ℝ

/-- Embeds `get_budget_range`: budget bucket → total session budget band.  The
dictionary lookup's `(0, 100000)` default is unreachable for the enum. -/
noncomputable def get_budget_range : Budget → ℝ × ℝ
  | .low => (0, 1000)
  | .medium => (1000, 3000)
  | .high => (3000, 7000)
  | .premium => (7000, 100000)

/-- Embeds `get_category_filters`: drink type → lowercase substring tokens. -/
def get_category_filters : DrinkType → List String
  | .wine_red => ["красное", "red"]
  | .wine_white => ["белое", "white"]
  | .wine_rose => ["розовое", "rose", "розе"]
  | .sparkling => ["игристое", "шампанское", "sparkling", "champagne"]
  | .spirits => ["крепкие", "виски", "коньяк", "водка", "джин", "ром", "whisky", "cognac", "vodka"]
  | .beer => ["пиво", "beer"]
  | .mixed => []

/-- Embeds `get_abv_range`: ABV band from style × drink type. -/
noncomputable def get_abv_range (style : Style) (drink_type : DrinkType) : ℝ × ℝ :=
  if drink_type = .spirits then
    match style with
    | .light => (30, 40)
    | .moderate => (35, 45)
    | .intense => (40, 70)
  else
    match style with
    | .light => (0, 12)
    | .moderate => (11, 14)
    | .intense => (13, 20)

/-- Does the character list `n` occur at the start of the second list?
(Helper for Python's `in` on strings.) -/
def charsStartWith : List Char → List Char → Bool
  | [], _ => true
  | _ :: _, [] => false
  | a :: as, b :: bs => a = b && charsStartWith as bs

/-- Does the character list `n` occur anywhere inside the second list? -/
def charsHasSub (n : List Char) : List Char → Bool
  | [] => n.isEmpty
  | c :: rest => charsStartWith n (c :: rest) || charsHasSub n rest

/-- Python's `needle in hay` on strings. -/
def strHasSub (hay needle : String) : Bool :=
  charsHasSub needle.data hay.data

/-- Python's `str.lower()` for the characters this catalog uses: ASCII plus
the Cyrillic uppercase range А..Я and Ё. -/
def lowerChar (c : Char) : Char :=
  if 0x410 ≤ c.toNat ∧ c.toNat ≤ 0x42F then Char.ofNat (c.toNat + 0x20)
  else if c.toNat = 0x401 then Char.ofNat 0x451
  else c.toLower

/-- Python's `str.lower()`. -/
def lowerStr (s : String) : String :=
  ⟨s.data.map lowerChar⟩

/-! ### The relevance scorer (`_calculate_session_score`)

Each block of the Python function becomes one `…Contribution` definition
returning what that block adds to `score`; the function itself accumulates
them in source order and divides by the accumulated `total_weight`. -/

/-- Embeds `float(product.get("price_current", 0) or 0)`. -/
noncomputable def effPrice (p : ProductRow) : ℝ :=
  p.price_current.getD 0

/-- The scorer's `rating` local: `float(...) if product.get("rating_value") else None`
(Python truthiness sends both a missing and a zero rating to `None`). -/
noncomputable def effRating (p : ProductRow) : Option ℝ :=
  match p.rating_value with
  | some v => if v = 0 then none else some v
  | none => none

/-- Embeds `rating_count = product.get("rating_count") or 0`. -/
def effRatingCount (p : ProductRow) : ℕ :=
  p.rating_count.getD 0

/-- Embeds `attrs = product.get("attrs_json") or {}`. -/
def attrsOf (p : ProductRow) : Attrs :=
  p.attrs_json.getD ⟨none, none, none⟩

/-- Price-fit block of `_calculate_session_score`. -/
noncomputable def priceContribution (price_weight price price_target target_window : ℝ) : ℝ :=
  if 0 < price ∧ 0 < price_weight then
    (1 - min 1 (|price - price_target| / max (price_target * 0.5) (max target_window 1))) * price_weight
  else 0

/-- ABV-fit block of `_calculate_session_score`. -/
noncomputable def abvContribution (abv_weight : ℝ) (abv : Option ℝ) (abv_range : ℝ × ℝ) : ℝ :=
  match abv with
  | some a =>
    if 0 < abv_weight then
      if abv_range.1 ≤ a ∧ a ≤ abv_range.2 then abv_weight
      else max 0 (1 - min |a - abv_range.1| |a - abv_range.2| / 7) * abv_weight
    else 0
  | none => 0

/-- The `expected_color` table of the category block. -/
def expected_color : DrinkType → Option String
  | .wine_red => some "Красное"
  | .wine_white => some "Белое"
  | .wine_rose => some "Розовое"
  | _ => none

/-- Category-fit block of `_calculate_session_score`; `category_path_lower`
is `(product.get("category_path") or "").lower()`. -/
noncomputable def categoryContribution (category_weight : ℝ) (drink_type : DrinkType)
    (attrsColor : Option String) (category_path_lower : String)
    (category_filters : List String) : ℝ :=
  if drink_type = .wine_red ∨ drink_type = .wine_white ∨ drink_type = .wine_rose then
    if attrsColor = expected_color drink_type then category_weight
    else if category_filters ≠ [] ∧ category_filters.any (fun t => strHasSub category_path_lower t) then
      category_weight * 0.5
    else 0
  else
    if category_filters ≠ [] then
      if category_filters.any (fun t => strHasSub category_path_lower t) then category_weight
      else 0
    else category_weight * 0.5

/-- Embeds `confidence_boost = min(1.0, (rating_count / 50) * 0.2)`. -/
noncomputable def confidenceBoost (rating_count : ℕ) : ℝ :=
  min 1 ((rating_count : ℝ) / 50 * 0.2)

/-- Embeds `rating_score = min(1.0, (rating / 5) + confidence_boost)`. -/
noncomputable def ratingSubScore (rating : ℝ) (rating_count : ℕ) : ℝ :=
  min 1 (rating / 5 + confidenceBoost rating_count)

/-- Rating-fit block of `_calculate_session_score` (including the `elif
rating_weight > 0: score += 0.4 * rating_weight` fallback). -/
noncomputable def ratingContribution (rating_weight : ℝ) (rating : Option ℝ)
    (rating_count : ℕ) : ℝ :=
  match rating with
  | some r => if 0 < rating_weight then ratingSubScore r rating_count * rating_weight else 0
  | none => if 0 < rating_weight then 0.4 * rating_weight else 0

/-- Popularity block of `_calculate_session_score`. -/
noncomputable def popularityContribution (popularity_weight : ℝ) (rating_count : ℕ) : ℝ :=
  if rating_count ≠ 0 ∧ 0 < popularity_weight then
    min 1 (Real.log ((rating_count : ℝ) + 1) / Real.log 100) * popularity_weight
  else 0

/-- Python truthiness for an optional string (`if product.get("country"): …`). -/
def truthyStr : Option String → Option String
  | some s => if s = "" then none else some s
  | none => none

/-- Tests that `v` is truthy and contained in the preference set `l`. -/
def truthyMem (v : Option String) (l : List String) : Bool :=
  match v with
  | some s => decide (s ≠ "") && l.contains s
  | none => false

/-- Membership of an optional attribute in a preference set (no truthiness
check in the source: `attrs.get("Цвет") in preferences.get("colors", set())`;
`None` is never a member of a set of strings). -/
def optMem (v : Option String) (l : List String) : Bool :=
  match v with
  | some s => l.contains s
  | none => false

/-- The accumulated `behavior_score` of the behavioral block. -/
noncomputable def behaviorScore (p : ProductRow) (price : ℝ) (abv : Option ℝ)
    (prefs : Preferences) : ℝ :=
  (if truthyMem p.country prefs.top_countries then 0.3 else 0)
  + (if truthyMem p.producer prefs.top_producers then 0.2 else 0)
  + (if optMem (attrsOf p).color prefs.colors then 0.15 else 0)
  + (if optMem (attrsOf p).grape prefs.grapes then 0.1 else 0)
  + (if optMem (attrsOf p).sugar prefs.sugars then 0.05 else 0)
  + (match prefs.price_median with
     | some m => if m ≠ 0 then max 0 (1 - min 1 (|price - m| / max (m * 0.5) 300)) * 0.2 else 0
     | none => 0)
  + (match prefs.abv_median with
     | some m => max 0 (1 - min 1 (|abv.getD 0 - m| / 5)) * 0.1
     | none => 0)

/-- Behavioral block of `_calculate_session_score`. -/
noncomputable def behaviorContribution (behavior_weight : ℝ) (p : ProductRow)
    (price : ℝ) (abv : Option ℝ) (prefs : Preferences) : ℝ :=
  if 0 < behavior_weight then min 1 (behaviorScore p price abv prefs) * behavior_weight
  else 0

/-- The accumulated `total_weight`: every one of the six weights is added
unconditionally, whether or not its block contributed to `score`. -/
noncomputable def totalWeight (w : Weights) : ℝ :=
  w.price + w.abv + w.category + w.rating + w.popularity + w.behavior

/-- Embeds `_calculate_session_score`, assembled from the per-block contributions in
source order, with the final `score / total_weight if total_weight > 0 else 0`. -/
noncomputable def calculate_session_score (product : ProductRow) (quiz : QuizAnswers)
    (weights : Weights) (price_target target_window : ℝ) (abv_range : ℝ × ℝ)
    (category_filters : List String) (preferences : Preferences) : ℝ :=
  let price := effPrice product
  let score := priceContribution weights.price price price_target target_window
  let score := score + abvContribution weights.abv product.abv_percent abv_range
  let score := score + categoryContribution weights.category quiz.drink_type
      (attrsOf product).color (lowerStr (product.category_path.getD "")) category_filters
  let score := score + ratingContribution weights.rating (effRating product) (effRatingCount product)
  let score := score + popularityContribution weights.popularity (effRatingCount product)
  let score := score + behaviorContribution weights.behavior product price
      product.abv_percent preferences
  if 0 < totalWeight weights then score / totalWeight weights else 0

/-! ### Spec-side definitions used to settle refinement claims

These two definitions follow the SPEC's words (not the source) and exist
only to be compared with the source-derived definitions above. -/

/-- Follows the spec's words: relevance is the weighted sum divided by the
sum of only the APPLIED weights — a component whose attribute is missing on
the candidate (price absent or zero, ABV unknown, no reviews for popularity)
contributes neither to the numerator nor to the denominator. -/
noncomputable def specAppliedWeightScore (product : ProductRow) (quiz : QuizAnswers)
    (weights : Weights) (price_target target_window : ℝ) (abv_range : ℝ × ℝ)
    (category_filters : List String) (preferences : Preferences) : ℝ :=
  let price := effPrice product
  let num := priceContribution weights.price price price_target target_window
    + abvContribution weights.abv product.abv_percent abv_range
    + categoryContribution weights.category quiz.drink_type
        (attrsOf product).color (lowerStr (product.category_path.getD "")) category_filters
    + ratingContribution weights.rating (effRating product) (effRatingCount product)
    + popularityContribution weights.popularity (effRatingCount product)
    + behaviorContribution weights.behavior product price product.abv_percent preferences
  let denom := (if 0 < price ∧ 0 < weights.price then weights.price else 0)
    + (if product.abv_percent ≠ none ∧ 0 < weights.abv then weights.abv else 0)
    + weights.category
    + (if 0 < weights.rating then weights.rating else 0)
    + (if effRatingCount product ≠ 0 ∧ 0 < weights.popularity then weights.popularity else 0)
    + (if 0 < weights.behavior then weights.behavior else 0)
  if 0 < denom then num / denom else 0

/-- Follows the spec's words: `confidence_boost = min(0.2, rating_count/50 × 0.2)`. -/
noncomputable def specConfidenceBoost (rating_count : ℕ) : ℝ :=
  min 0.2 ((rating_count : ℝ) / 50 * 0.2)

/-! ### The diversity selector (`_diversity_select`) -/

/-- Embeds `DIVERSITY_PENALTIES` from `recommender.py`. -/
noncomputable def DIVERSITY_PENALTIES : ℝ × ℝ × ℝ :=
  (0.15, 0.1, 0.05)

/-- The selector's `price_range` helper: four fixed price tiers. -/
noncomputable def price_range_of (price : ℝ) : String :=
  if price < 500 then "budget"
  else if price < 1500 then "mid-low"
  else if price < 3000 then "mid-high"
  else "premium"

/-- The diversity `penalty` accumulated for one candidate.  The counter maps
mirror the Python dicts (default 0); the country term is guarded by the
source's `if candidate.country:` truthiness test. -/
noncomputable def diversity_penalty (penalty_scale : ℝ) (usedP : Option String → ℕ)
    (usedC usedR : String → ℕ) (c : Product) : ℝ :=
  (usedP c.producer : ℝ) * DIVERSITY_PENALTIES.1 * penalty_scale
  + (match c.country with
     | some s => if s ≠ "" then (usedC s : ℝ) * DIVERSITY_PENALTIES.2.1 * penalty_scale else 0
     | none => 0)
  + (usedR (price_range_of c.price_current) : ℝ) * DIVERSITY_PENALTIES.2.2 * penalty_scale

/-- Embeds `adjusted = candidate.relevance_score - penalty`. -/
noncomputable def adjusted_score (penalty_scale : ℝ) (usedP : Option String → ℕ)
    (usedC usedR : String → ℕ) (c : Product) : ℝ :=
  c.relevance_score - diversity_penalty penalty_scale usedP usedC usedR c

/-- The selector's inner argmax scan: `best_score` starts at `-inf`, so the
first candidate always takes the lead and a strictly greater adjusted score
is needed to displace it (first maximizer wins). -/
noncomputable def pick_best (adj : Product → ℝ) (c : Product) (cs : List Product) : Product :=
  cs.foldl (fun b x => if adj b < adj x then x else b) c

/-- Increment of a producer counter (`used_producers[p] = get(p, 0) + 1`;
`None` is a legitimate dict key in the source). -/
def bumpOptCounter (f : Option String → ℕ) (k : Option String) : Option String → ℕ :=
  fun x => if x = k then f k + 1 else f x

/-- Increment of a string-keyed counter. -/
def bumpCounter (f : String → ℕ) (k : String) : String → ℕ :=
  fun x => if x = k then f k + 1 else f x

/-- Country counter update, guarded by `if best_product.country:`. -/
def bumpCountry (f : String → ℕ) : Option String → String → ℕ
  | some s => if s = "" then f else bumpCounter f s
  | none => f

/-- The selector's greedy `while` loop.  Each iteration appends exactly one
product, so the remaining allowance `limit - len(diverse_products)` is the
structural fuel; the loop also stops when `remaining` is exhausted. -/
noncomputable def diversity_go (penalty_scale : ℝ) (usedP : Option String → ℕ)
    (usedC usedR : String → ℕ) : ℕ → List Product → List Product
  | 0, _ => []
  | _ + 1, [] => []
  | n + 1, c :: cs =>
    let best := pick_best (adjusted_score penalty_scale usedP usedC usedR) c cs
    best :: diversity_go penalty_scale (bumpOptCounter usedP best.producer)
      (bumpCountry usedC best.country)
      (bumpCounter usedR (price_range_of best.price_current))
      n ((c :: cs).erase best)

/-- Embeds `_diversity_select` (the `if not products: return []` early exit returns
the same value as the loop on an empty list). -/
noncomputable def diversity_select (products : List Product) (limit : ℕ)
    (penalty_scale : ℝ) : List Product :=
  diversity_go penalty_scale (fun _ => 0) (fun _ => 0) (fun _ => 0) limit products

/-- The claim-side reading of "country_repeat_count": the number of already
selected items sharing the candidate's country, which is zero for an item
without a country (the source never counts those). -/
def countryRepeat (usedC : String → ℕ) : Option String → ℕ
  | some s => if s ≠ "" then usedC s else 0
  | none => 0

/-! ### Budget tracker (inline in `get_feed`) -/

/-- Embeds `TARGET_CART_ITEMS = 6`. -/
def TARGET_CART_ITEMS : ℤ := 6

/-- Cart totals returned by `_get_cart_totals`. -/
structure CartTotals where
  cart_total : ℝ
  distinct_items : ℕ

/-- Embeds `budget_target_total = ((min_price + max_price) / 2) * 0.9`. -/
noncomputable def budget_target_total (b : Budget) : ℝ :=
  ((get_budget_range b).1 + (get_budget_range b).2) / 2 * 0.9

/-- The per-item `price_target` computed in `get_feed`: an empty cart
targets `budget_target_total * 0.85`, otherwise the remaining budget is
spread over the remaining desired slots with a 300 floor. -/
noncomputable def feed_price_target (btt : ℝ) (ct : CartTotals) : ℝ :=
  if ct.cart_total = 0 ∧ ct.distinct_items = 0 then btt * 0.85
  else
    let budget_left := max 0 (btt - ct.cart_total)
    let remaining_slots : ℤ := max 1 (TARGET_CART_ITEMS - (ct.distinct_items : ℤ))
    max 300 (budget_left / (remaining_slots : ℝ))

/-- Embeds `penalty_scale` as set in `get_feed`: 1.2 for groups of four or more. -/
noncomputable def feed_penalty_scale (quiz : QuizAnswers) : ℝ :=
  if 4 ≤ quiz.people_count then 1.2 else 1

/-- Embeds `fetch_multiplier` as set in `get_feed`: `int(math.ceil(8 * 1.2)) = 10`
for groups of four or more, else 8. -/
def feed_fetch_multiplier (quiz : QuizAnswers) : ℕ :=
  if 4 ≤ quiz.people_count then 10 else 8

/-! ### Database state

Each table becomes a list of typed rows.  The unique key `(session_id, sku)`
of `session_events` and `session_cart` is not assumed: the upserts below
implement the `on conflict` clauses literally (update every matching row,
insert only when none matches), so key uniqueness is a provable invariant
rather than a modelling assumption. -/

/-- A row of `session_events`; `action` is `null` for a bare impression. -/
structure EventRow where
  session_id : SessionId
  sku : Sku
  action : Option String
  created_at : ℕ
deriving DecidableEq

/-- A row of `session_cart`. -/
structure CartRow where
  session_id : SessionId
  sku : Sku
  qty : ℤ
  price_at_add : ℝ
  added_at : ℕ

/-- A row of `sessions`. -/
structure SessionRow where
  session_id : SessionId
  user_id : Option ℕ
  status : String
  created_at : ℕ
  updated_at : ℕ

/-- The whole database; `next_session_id` models the serial primary key
generator behind `insert into sessions … returning session_id`. -/
structure DB where
  products : List ProductRow
  sessions : List SessionRow
  session_quiz : List (SessionId × QuizAnswers)
  events : List EventRow
  cart : List CartRow
  next_session_id : SessionId

/-- The typed error taxonomy; each constructor corresponds to one
`raise ValueError(…)` site in `recommender.py`. -/
inductive Err
  | invalidQuiz
  | invalidReaction
  | invalidQuantity
  | itemNotFound
deriving DecidableEq

/-- Embeds `update sessions set updated_at = now() where session_id = …`. -/
def touchSession (rows : List SessionRow) (sid : SessionId) (now : ℕ) : List SessionRow :=
  rows.map (fun r => if r.session_id = sid then {r with updated_at := now} else r)

/-- One `insert … on conflict (session_id, sku) do nothing` of
`_log_impressions`. -/
def insertImpression (rows : List EventRow) (sid : SessionId) (sku : Sku) (now : ℕ) :
    List EventRow :=
  if rows.any (fun r => decide (r.session_id = sid ∧ r.sku = sku)) then rows
  else rows ++ [⟨sid, sku, none, now⟩]

/-- Embeds `_log_impressions`: `executemany` over the selected skus. -/
def log_impressions (rows : List EventRow) (sid : SessionId) (skus : List Sku) (now : ℕ) :
    List EventRow :=
  skus.foldl (fun rs sku => insertImpression rs sid sku now) rows

/-- The `record_reaction` upsert: on conflict the action is replaced and
`created_at = session_events.created_at` keeps the original timestamp. -/
def upsertReaction (rows : List EventRow) (sid : SessionId) (sku : Sku)
    (action : String) (now : ℕ) : List EventRow :=
  if rows.any (fun r => decide (r.session_id = sid ∧ r.sku = sku)) then
    rows.map (fun r =>
      if r.session_id = sid ∧ r.sku = sku then {r with action := some action} else r)
  else rows ++ [⟨sid, sku, some action, now⟩]

/-- The `add_to_cart` upsert: on conflict
`qty = greatest(1, session_cart.qty + excluded.qty)` and `added_at` is
refreshed, while `price_at_add` keeps its original value. -/
noncomputable def upsertCartLine (rows : List CartRow) (sid : SessionId) (sku : Sku)
    (qty_delta : ℤ) (price_at_add : ℝ) (now : ℕ) : List CartRow :=
  if rows.any (fun r => decide (r.session_id = sid ∧ r.sku = sku)) then
    rows.map (fun r =>
      if r.session_id = sid ∧ r.sku = sku then
        {r with qty := max 1 (r.qty + qty_delta), added_at := now}
      else r)
  else rows ++ [⟨sid, sku, qty_delta, price_at_add, now⟩]

/-- The `upsert_quiz` upsert on `session_quiz (session_id)`. -/
def upsertQuizRow (rows : List (SessionId × QuizAnswers)) (sid : SessionId)
    (q : QuizAnswers) : List (SessionId × QuizAnswers) :=
  if rows.any (fun r => decide (r.1 = sid)) then
    rows.map (fun r => if r.1 = sid then (sid, q) else r)
  else rows ++ [(sid, q)]

/-- Embeds `_fetch_session_quiz`. -/
def fetch_session_quiz (db : DB) (sid : SessionId) : Option QuizAnswers :=
  (db.session_quiz.find? (fun r => decide (r.1 = sid))).map (·.2)

/-- Embeds `_get_cart_totals`: `sum(qty * price_at_add)` and `count(distinct sku)`
over the session's cart rows. -/
noncomputable def get_cart_totals (db : DB) (sid : SessionId) : CartTotals :=
  let rows := db.cart.filter (fun r => decide (r.session_id = sid))
  ⟨(rows.map (fun r => (r.qty : ℝ) * r.price_at_add)).sum,
   ((rows.map (·.sku)).dedup).length⟩

/-- Embeds `_fetch_liked`: events with `action = 'like'` joined to `products`. -/
def fetch_liked (db : DB) (sid : SessionId) : List ProductRow :=
  (db.events.filter (fun e => decide (e.session_id = sid ∧ e.action = some "like"))).filterMap
    (fun e => db.products.find? (fun p => decide (p.sku = e.sku)))

/-! ### Preference learner (`_build_preferences`) -/

/-- Multiplicity of a key in the occurrence list (a `Counter` entry). -/
def keyCount (l : List String) (k : String) : ℕ :=
  (l.filter (fun x => decide (x = k))).length

/-- Distinct keys in first-encounter order (a `Counter`'s insertion order). -/
def distinctKeysAux (acc : List String) : List String → List String
  | [] => acc.reverse
  | x :: xs => if acc.contains x then distinctKeysAux acc xs else distinctKeysAux (x :: acc) xs

/-- Distinct keys of an occurrence list, first encounter first. -/
def distinctKeys (l : List String) : List String :=
  distinctKeysAux [] l

/-- First key of maximal count, ties resolved to the earlier key, as
`Counter.most_common` orders equal counts by first encounter. -/
def pickMaxCount (count : String → ℕ) (c : String) (cs : List String) : String :=
  cs.foldl (fun b x => if count b < count x then x else b) c

/-- Selection loop behind `Counter.most_common(n)`. -/
def mostCommonGo (count : String → ℕ) : ℕ → List String → List String
  | 0, _ => []
  | _ + 1, [] => []
  | n + 1, c :: cs =>
    let best := pickMaxCount count c cs
    best :: mostCommonGo count n ((c :: cs).erase best)

/-- Embeds `top_keys(counter, n)`: the set of the `n` most common keys.  Downstream
code only tests membership, so the list order is immaterial. -/
def topKeys (l : List String) (n : ℕ) : List String :=
  mostCommonGo (keyCount l) n (distinctKeys l)

/-- Embeds `statistics.median` on reals: middle element, or mean of the two middle
elements, of the sorted list. -/
noncomputable def medianR (l : List ℝ) : Option ℝ :=
  match l with
  | [] => none
  | _ =>
    let s := List.insertionSort (fun a b : ℝ => a ≤ b) l
    let n := l.length
    if n % 2 = 1 then some ((s.get? (n / 2)).getD 0)
    else some (((s.get? (n / 2 - 1)).getD 0 + (s.get? (n / 2)).getD 0) / 2)

/-- Embeds `_build_preferences`. -/
noncomputable def build_preferences (liked : List ProductRow) : Preferences :=
  let countries := liked.filterMap (fun p => truthyStr p.country)
  let producers := liked.filterMap (fun p => truthyStr p.producer)
  let colors := liked.filterMap (fun p => truthyStr (attrsOf p).color)
  let grapes := liked.filterMap (fun p => truthyStr (attrsOf p).grape)
  let sugars := liked.filterMap (fun p => truthyStr (attrsOf p).sugar)
  let prices := liked.filterMap (·.price_current)
  let abvs := liked.filterMap (·.abv_percent)
  ⟨topKeys countries 2, topKeys producers 2, topKeys colors 2, topKeys grapes 2,
   topKeys sugars 2, medianR prices, medianR abvs⟩

/-! ### Candidate retriever (`_fetch_candidates`) -/

/-- The drink-type-specific SQL filter of `_fetch_candidates`.  SQL `null`
comparisons and `lower(null)` propagate to a non-match. -/
noncomputable def drinkTypeFilter (dt : DrinkType) (p : ProductRow) : Bool :=
  match dt with
  | .mixed => true
  | .wine_red => decide ((attrsOf p).color = some "Красное")
  | .wine_white => decide ((attrsOf p).color = some "Белое" ∨ (attrsOf p).color = some "Белый")
  | .wine_rose => decide ((attrsOf p).color = some "Розовое")
  | .sparkling =>
    match p.category_path with
    | some c => strHasSub (lowerStr c) "игрист" || strHasSub (lowerStr c) "шампан"
    | none => false
  | .spirits =>
    match p.category_path with
    | some c => (get_category_filters .spirits).any (fun t => strHasSub (lowerStr c) (lowerStr t))
    | none => false
  | .beer =>
    match p.category_path with
    | some c => (get_category_filters .beer).any (fun t => strHasSub (lowerStr c) (lowerStr t))
    | none => false

/-- The `where` clause of `_fetch_candidates`: in stock, priced above zero,
ABV in range or unknown, no `session_events` row for this session, and the
drink-type filter. -/
noncomputable def candidate_matches (db : DB) (sid : SessionId) (quiz : QuizAnswers)
    (abv_range : ℝ × ℝ) (p : ProductRow) : Bool :=
  decide (p.availability_status = "in_stock")
  && decide (p.price_current ≠ none)
  && (match p.price_current with
      | some v => if 0 < v then true else false
      | none => false)
  && (match p.abv_percent with
      | some a => if abv_range.1 ≤ a ∧ a ≤ abv_range.2 then true else false
      | none => true)
  && !(db.events.any (fun e => decide (e.session_id = sid ∧ e.sku = p.sku)))
  && drinkTypeFilter quiz.drink_type p

/-- Embeds `coalesce(p.rating_value, 3.5)`. -/
noncomputable def coalesceRating (p : ProductRow) : ℝ :=
  p.rating_value.getD 3.5

/-- Embeds `coalesce(p.rating_count, 0)`. -/
def coalesceCount (p : ProductRow) : ℕ :=
  p.rating_count.getD 0

/-- The `order by` of `_fetch_candidates`: rating desc, rating count desc,
price asc ("`a` sorts no later than `b`"). -/
noncomputable def candBefore (a b : ProductRow) : Prop :=
  coalesceRating b < coalesceRating a
  ∨ (coalesceRating a = coalesceRating b
     ∧ (coalesceCount b < coalesceCount a
        ∨ (coalesceCount a = coalesceCount b ∧ effPrice a ≤ effPrice b)))

noncomputable instance : DecidableRel candBefore :=
  fun _ _ => Classical.dec _

/-- Embeds `_fetch_candidates`: filter, order, `limit fetch_limit`. -/
noncomputable def fetch_candidates (db : DB) (sid : SessionId) (quiz : QuizAnswers)
    (abv_range : ℝ × ℝ) (fetch_limit : ℕ) : List ProductRow :=
  (List.insertionSort candBefore
    (db.products.filter (candidate_matches db sid quiz abv_range))).take fetch_limit

/-- Embeds `_to_product_model`.  The float fields go through Python truthiness
(`float(x) if row.get(k) else None`), which maps a stored `0` to `None`. -/
noncomputable def optNonzero : Option ℝ → Option ℝ
  | some x => if x = 0 then none else some x
  | none => none

/-- Embeds `_to_product_model`. -/
noncomputable def to_product_model (p : ProductRow) (score : ℝ) : Product :=
  ⟨p.sku, p.name, p.price_current.getD 0, p.country, p.producer,
   optNonzero p.volume_l, optNonzero p.abv_percent, p.category_path,
   p.image_urls, optNonzero p.rating_value, p.rating_count, score⟩

/-! ### Feed orchestrator (`get_feed`) and the other session calls -/

/-- Embeds `scored_products.sort(key=lambda p: p.relevance_score, reverse=True)`:
"`a` sorts no later than `b`" for a stable descending sort. -/
noncomputable def scoreDesc (a b : Product) : Prop :=
  b.relevance_score < a.relevance_score

noncomputable instance : DecidableRel scoreDesc :=
  fun _ _ => Classical.dec _

/-- The response dictionary of `get_feed`. -/
structure FeedResponse where
  items : List Product
  budget_target_total : ℝ
  cart_total : ℝ
  budget_progress : ℝ
  n_target_items : ℤ
  cart_items_count : ℕ
  can_stop : Bool

/-- Embeds `get_feed`.  A raised exception (missing quiz) rolls the transaction
back, so the error branch carries no state change. -/
noncomputable def get_feed (db : DB) (session_id : SessionId) (page_size : ℕ)
    (weights_override : Option WeightsOverride) (now : ℕ) :
    Except Err (DB × FeedResponse) :=
  match fetch_session_quiz db session_id with
  | none => .error .invalidQuiz
  | some quiz =>
    let weights := match weights_override with
      | some o => mergeWeights DEFAULT_WEIGHTS o
      | none => DEFAULT_WEIGHTS
    let btt := budget_target_total quiz.budget
    let target_window := max (btt * 0.1) 300
    let cart_totals := get_cart_totals db session_id
    let price_target := feed_price_target btt cart_totals
    let abv_range := get_abv_range quiz.style quiz.drink_type
    let category_filters := get_category_filters quiz.drink_type
    let penalty_scale := feed_penalty_scale quiz
    let fetch_limit := page_size * feed_fetch_multiplier quiz
    let preferences := build_preferences (fetch_liked db session_id)
    let candidates := fetch_candidates db session_id quiz abv_range fetch_limit
    let scored := candidates.map (fun c =>
      to_product_model c (calculate_session_score c quiz weights price_target
        target_window abv_range category_filters preferences))
    let selected := diversity_select (List.insertionSort scoreDesc scored) page_size penalty_scale
    .ok ({db with events := log_impressions db.events session_id (selected.map (·.sku)) now},
      ⟨selected, btt, cart_totals.cart_total,
       if 0 < btt then cart_totals.cart_total / btt else 0,
       TARGET_CART_ITEMS, cart_totals.distinct_items, true⟩)

/-- Embeds `record_reaction`. -/
def record_reaction (db : DB) (sid : SessionId) (sku : Sku) (action : String)
    (now : ℕ) : Except Err DB :=
  if action = "like" ∨ action = "dislike" then
    .ok {db with events := upsertReaction db.events sid sku action now,
                 sessions := touchSession db.sessions sid now}
  else .error .invalidReaction

/-- Embeds `add_to_cart`: `qty_delta == 0` returns before any store access, a
negative delta raises, and a missing or unpriced product raises. -/
noncomputable def add_to_cart (db : DB) (sid : SessionId) (sku : Sku)
    (qty_delta : ℤ) (now : ℕ) : Except Err DB :=
  if qty_delta = 0 then .ok db
  else if qty_delta < 0 then .error .invalidQuantity
  else
    match db.products.find? (fun p => decide (p.sku = sku)) with
    | none => .error .itemNotFound
    | some prow =>
      match prow.price_current with
      | none => .error .itemNotFound
      | some price_at_add =>
        .ok {db with cart := upsertCartLine db.cart sid sku qty_delta price_at_add now,
                     sessions := touchSession db.sessions sid now}

/-- Embeds `upsert_quiz`. -/
def upsert_quiz (db : DB) (sid : SessionId) (q : QuizAnswers) (now : ℕ) : DB :=
  {db with session_quiz := upsertQuizRow db.session_quiz sid q,
           sessions := touchSession db.sessions sid now}

/-- Embeds `create_session`. -/
def create_session (db : DB) (user_id : Option ℕ) (now : ℕ) : DB × SessionId :=
  let sid := db.next_session_id
  ({db with sessions := db.sessions ++ [⟨sid, user_id, "in_progress", now, now⟩],
            next_session_id := sid + 1}, sid)

/-- Embeds `stop_session`. -/
def stop_session (db : DB) (sid : SessionId) (now : ℕ) : DB :=
  {db with sessions := db.sessions.map (fun r =>
    if r.session_id = sid then {r with status := "completed", updated_at := now} else r)}

/-! ### Session traces -/

/-- One engine call, with its request parameters. -/
inductive Op
  | feed (sid : SessionId) (page_size : ℕ) (wo : Option WeightsOverride)
  | react (sid : SessionId) (sku : Sku) (action : String)
  | cartAdd (sid : SessionId) (sku : Sku) (qty_delta : ℤ)
  | quizSet (sid : SessionId) (q : QuizAnswers)
  | start (user_id : Option ℕ)
  | stop (sid : SessionId)

/-- The state transition of one call: an error rolls back, leaving the
database unchanged. -/
noncomputable def applyOp (db : DB) (op : Op) (now : ℕ) : DB :=
  match op with
  | .feed sid ps wo =>
    match get_feed db sid ps wo now with
    | .ok r => r.1
    | .error _ => db
  | .react sid sku a =>
    match record_reaction db sid sku a now with
    | .ok d => d
    | .error _ => db
  | .cartAdd sid sku q =>
    match add_to_cart db sid sku q now with
    | .ok d => d
    | .error _ => db
  | .quizSet sid q => upsert_quiz db sid q now
  | .start uid => (create_session db uid now).1
  | .stop sid => stop_session db sid now

/-- Run a trace of timestamped calls. -/
noncomputable def runDB (db : DB) (ops : List (Op × ℕ)) : DB :=
  ops.foldl (fun d o => applyOp d o.1 o.2) db

/-- The skus of the page served by a call (empty for non-feed calls and for
a failed feed call, whose transaction is rolled back). -/
noncomputable def feed_page (db : DB) (op : Op) (now : ℕ) : List Sku :=
  match op with
  | .feed sid ps wo =>
    match get_feed db sid ps wo now with
    | .ok r => r.2.items.map (·.sku)
    | .error _ => []
  | _ => []

/-- The page served by the `i`-th call of a trace starting from `db`. -/
noncomputable def pageAt (db : DB) (ops : List (Op × ℕ)) (i : ℕ) : List Sku :=
  match ops.get? i with
  | some o => feed_page (runDB db (ops.take i)) o.1 o.2
  | none => []

/-- Some row of an event list carries the `(session, sku)` key. -/
def rowsHaveKey (rows : List EventRow) (sid : SessionId) (sku : Sku) : Prop :=
  ∃ e ∈ rows, e.session_id = sid ∧ e.sku = sku

/-- The session has an impression/reaction row for the sku — the exclusion
ledger entry that keeps the sku out of all later candidate pools. -/
def hasEvent (db : DB) (sid : SessionId) (sku : Sku) : Prop :=
  rowsHaveKey db.events sid sku

/-! ### Concrete fixtures for witnesses and counterexamples -/

/-- A minimal in-stock product: priced, no ABV, no category, no ratings. -/
noncomputable def rowA : ProductRow :=
  ⟨"A", "Wine A", some 500, none, none, none, none, none, [], none, none, "in_stock", none⟩

/-- A product row with no price and a full five-star rating. -/
noncomputable def rowNoPrice : ProductRow :=
  ⟨"NP", "No price", none, none, none, none, none, none, [], some 5, none, "in_stock", none⟩

/-- A product rated 3.0 with 250 reviews. -/
noncomputable def rowR3 : ProductRow :=
  ⟨"R3", "Rated 3", some 500, none, none, none, none, none, [], some 3, some 250, "in_stock", none⟩

/-- Quiz answers: mixed drinks, moderate style, one person, medium budget. -/
def quizMixed : QuizAnswers :=
  ⟨"party", .moderate, .mixed, 1, .medium⟩

/-- The empty preference profile (a session with no likes yet). -/
noncomputable def prefs0 : Preferences :=
  ⟨[], [], [], [], [], none, none⟩

/-- A weight map with unit weight on price and rating only. -/
noncomputable def wPriceRating : Weights :=
  ⟨1, 0, 0, 1, 0, 0⟩

/-- A weight map with unit weight on rating only. -/
noncomputable def wRatingOnly : Weights :=
  ⟨0, 0, 0, 1, 0, 0⟩

/-- A one-product database with a stored quiz for session 1 and no prior
events or cart lines. -/
noncomputable def db0 : DB :=
  ⟨[rowA], [⟨1, none, "in_progress", 0, 0⟩], [(1, quizMixed)], [], [], 2⟩

/-- Two consecutive feed calls for session 1, one item per page. -/
noncomputable def ops0 : List (Op × ℕ) :=
  [(Op.feed 1 1 none, 0), (Op.feed 1 1 none, 1)]

/-- A scored product model for exercising the diversity selector. -/
noncomputable def prodA : Product :=
  ⟨"A", "Wine A", 100, none, none, none, none, none, [], none, none, 0.5⟩

/-- A second scored product model with a different sku. -/
noncomputable def prodB : Product :=
  ⟨"B", "Wine B", 2000, some "France", some "Dom B", none, none, none, [], none, none, 0.4⟩

/-- Cart line quantity for a `(session, sku)` key, if a line exists. -/
def cartQty (db : DB) (sid : SessionId) (sku : Sku) : Option ℤ :=
  (db.cart.find? (fun r => decide (r.session_id = sid ∧ r.sku = sku))).map (·.qty)

/-- All `session_events` rows for a `(session, sku)` key. -/
def eventsFor (db : DB) (sid : SessionId) (sku : Sku) : List EventRow :=
  db.events.filter (fun r => decide (r.session_id = sid ∧ r.sku = sku))

/-! ## Theorems -/

/-- C10: calling `add_to_cart` with `qty_delta = 0` is a silent no-op: it
returns successfully before any store access, raising no error and leaving
the database (cart lines, products, session timestamps) unchanged. -/
theorem add_to_cart_zero_is_noop (db : DB) (sid : SessionId) (sku : Sku) (now : ℕ) :
    add_to_cart db sid sku 0 now = .ok db := by
  simp [add_to_cart]

/-- C9: `add_to_cart` rejects every strictly negative `qty_delta` with
`InvalidQuantity`, and in the add-2-then-add-(−1) scenario the second call
fails while the cart line keeps quantity 2. -/
theorem add_to_cart_negative_rejected :
    (∀ (db : DB) (sid : SessionId) (sku : Sku) (d : ℤ) (now : ℕ), d < 0 →
      add_to_cart db sid sku d now = .error .invalidQuantity)
    ∧ (∀ (db : DB) (sid : SessionId) (sku : Sku) (prow : ProductRow) (pr : ℝ) (t₁ t₂ : ℕ),
        db.products.find? (fun p => decide (p.sku = sku)) = some prow →
        prow.price_current = some pr →
        (∀ r ∈ db.cart, ¬(r.session_id = sid ∧ r.sku = sku)) →
        ∃ db₁, add_to_cart db sid sku 2 t₁ = .ok db₁
          ∧ add_to_cart db₁ sid sku (-1) t₂ = .error .invalidQuantity
          ∧ cartQty db₁ sid sku = some 2) := by
  constructor
  · intro db sid sku d now hd
    have h0 : ¬(d = 0) := by omega
    simp [add_to_cart, h0, hd]
  · intro db sid sku prow pr t₁ t₂ hfind hpr hno
    have hany : db.cart.any (fun r => decide (r.session_id = sid ∧ r.sku = sku)) = false := by
      rw [List.any_eq_false]
      intro r hr
      simpa using hno r hr
    have h1 : add_to_cart db sid sku 2 t₁
        = .ok {db with cart := upsertCartLine db.cart sid sku 2 pr t₁,
                       sessions := touchSession db.sessions sid t₁} := by
      simp [add_to_cart, hfind, hpr]
    refine ⟨_, h1, ?_, ?_⟩
    · unfold add_to_cart
      rw [if_neg (by decide : ¬(-1 : ℤ) = 0), if_pos (by decide : (-1 : ℤ) < 0)]
    · have hnone : db.cart.find? (fun r => decide (r.session_id = sid ∧ r.sku = sku)) = none := by
        rw [List.find?_eq_none]
        intro r hr
        simpa using hno r hr
      have hup : upsertCartLine db.cart sid sku 2 pr t₁
          = db.cart ++ [⟨sid, sku, 2, pr, t₁⟩] := by
        unfold upsertCartLine
        rw [hany]
        simp
      show ((upsertCartLine db.cart sid sku 2 pr t₁).find?
        (fun r => decide (r.session_id = sid ∧ r.sku = sku))).map (fun r => r.qty) = some 2
      rw [hup, List.find?_append, hnone]
      simp

/-- C8: `record_reaction` is idempotent and timestamp-preserving: from a
state with no event row for the key, two successive likes leave exactly one
row, with `action = 'like'` and the first call's timestamp; in general a
reaction update on an existing row keeps its original `created_at`. -/
theorem record_reaction_idempotent :
    (∀ (db : DB) (sid : SessionId) (sku : Sku) (t₁ t₂ : ℕ),
      eventsFor db sid sku = [] →
      ∃ db₁ db₂, record_reaction db sid sku "like" t₁ = .ok db₁
        ∧ record_reaction db₁ sid sku "like" t₂ = .ok db₂
        ∧ eventsFor db₂ sid sku = [⟨sid, sku, some "like", t₁⟩])
    ∧ (∀ (db : DB) (sid : SessionId) (sku : Sku) (e : EventRow) (a : String) (t : ℕ),
        a = "like" ∨ a = "dislike" →
        eventsFor db sid sku = [e] →
        ∃ db', record_reaction db sid sku a t = .ok db'
          ∧ eventsFor db' sid sku = [{e with action := some a}]) := by
  have filt_map : ∀ (rows : List EventRow) (sid : SessionId) (sku : Sku) (a : String),
      (rows.map (fun r => if r.session_id = sid ∧ r.sku = sku then {r with action := some a} else r)).filter
          (fun r => decide (r.session_id = sid ∧ r.sku = sku))
        = (rows.filter (fun r => decide (r.session_id = sid ∧ r.sku = sku))).map
            (fun r => {r with action := some a}) := by
    intro rows sid sku a
    induction rows with
    | nil => simp
    | cons r rs ih =>
      by_cases h : r.session_id = sid ∧ r.sku = sku
      · simp only [List.map_cons, List.filter_cons]
        rw [if_pos h]
        simp only [decide_eq_true_eq]
        rw [if_pos h, if_pos (show ((⟨r.session_id, r.sku, some a, r.created_at⟩ : EventRow).session_id = sid
          ∧ (⟨r.session_id, r.sku, some a, r.created_at⟩ : EventRow).sku = sku) from h)]
        simpa using ih
      · simp only [List.map_cons, List.filter_cons]
        rw [if_neg h]
        simp only [decide_eq_true_eq]
        rw [if_neg h, if_neg h]
        exact ih
  constructor
  · intro db sid sku t₁ t₂ hempty
    have hany : db.events.any (fun r => decide (r.session_id = sid ∧ r.sku = sku)) = false := by
      rw [List.any_eq_false]
      intro r hr
      by_contra hc
      have : r ∈ eventsFor db sid sku := List.mem_filter.2 ⟨hr, by simpa using hc⟩
      rw [hempty] at this
      exact absurd this (List.not_mem_nil r)
    have h1 : record_reaction db sid sku "like" t₁
        = .ok {db with events := upsertReaction db.events sid sku "like" t₁,
                       sessions := touchSession db.sessions sid t₁} := by
      simp [record_reaction]
    have h2 : record_reaction {db with events := upsertReaction db.events sid sku "like" t₁, sessions := touchSession db.sessions sid t₁} sid sku "like" t₂ = .ok {db with events := upsertReaction (upsertReaction db.events sid sku "like" t₁) sid sku "like" t₂, sessions := touchSession (touchSession db.sessions sid t₁) sid t₂} := by
      simp [record_reaction]
    refine ⟨_, _, h1, h2, ?_⟩
    have hstep1 : upsertReaction db.events sid sku "like" t₁
        = db.events ++ [⟨sid, sku, some "like", t₁⟩] := by
      simp only [upsertReaction, hany, if_false, Bool.false_eq_true]
    have hany₂ : (db.events ++ [(⟨sid, sku, some "like", t₁⟩ : EventRow)]).any
        (fun r => decide (r.session_id = sid ∧ r.sku = sku)) = true := by
      rw [List.any_eq_true]
      exact ⟨⟨sid, sku, some "like", t₁⟩, by simp⟩
    have hstep2 : upsertReaction (db.events ++ [(⟨sid, sku, some "like", t₁⟩ : EventRow)]) sid sku "like" t₂ = (db.events ++ [(⟨sid, sku, some "like", t₁⟩ : EventRow)]).map (fun r => if r.session_id = sid ∧ r.sku = sku then {r with action := some "like"} else r) := by
      simp only [upsertReaction, hany₂, if_true]
    simp only [eventsFor]
    rw [hstep1, hstep2, filt_map]
    unfold eventsFor at hempty
    rw [List.filter_append, hempty]
    simp
  · intro db sid sku e a t ha hone
    have hany : db.events.any (fun r => decide (r.session_id = sid ∧ r.sku = sku)) = true := by
      rw [List.any_eq_true]
      refine ⟨e, ?_, ?_⟩
      · have : e ∈ eventsFor db sid sku := by rw [hone]; exact List.mem_singleton.2 rfl
        exact (List.mem_filter.1 this).1
      · have : e ∈ eventsFor db sid sku := by rw [hone]; exact List.mem_singleton.2 rfl
        exact (List.mem_filter.1 this).2
    have hrr : record_reaction db sid sku a t
        = .ok {db with events := upsertReaction db.events sid sku a t,
                       sessions := touchSession db.sessions sid t} := by
      rcases ha with h | h <;> simp [record_reaction, h]
    refine ⟨_, hrr, ?_⟩
    simp only [eventsFor, upsertReaction, hany, if_true]
    rw [filt_map]
    unfold eventsFor at hone
    rw [hone]
    simp

/-- C7: `get_feed` computes `budget_target_total` as the budget bucket's
midpoint × 0.9 and, with an empty cart, a `price_target` of
`budget_target_total × 0.85`; for the medium bucket `[1000, 3000)` with an
empty cart the price target is 1530.0 and the served response reports a
budget target of 1800. -/
theorem budget_target_empty_cart :
    get_budget_range .medium = (1000, 3000)
    ∧ budget_target_total .medium = 1800
    ∧ (∀ b : Budget,
        budget_target_total b = ((get_budget_range b).1 + (get_budget_range b).2) / 2 * 0.9)
    ∧ (∀ (btt : ℝ) (ct : CartTotals), ct.cart_total = 0 → ct.distinct_items = 0 →
        feed_price_target btt ct = btt * 0.85)
    ∧ feed_price_target (budget_target_total .medium) ⟨0, 0⟩ = 1530
    ∧ (∀ (db : DB) (sid : SessionId) (ps : ℕ) (wo : Option WeightsOverride)
        (now : ℕ) (quiz : QuizAnswers),
        fetch_session_quiz db sid = some quiz → quiz.budget = .medium →
        ∃ r, get_feed db sid ps wo now = .ok r ∧ r.2.budget_target_total = 1800) := by
  refine ⟨rfl, ?_, fun b => rfl, ?_, ?_, ?_⟩
  · show ((1000 : ℝ) + 3000) / 2 * 0.9 = 1800
    norm_num
  · intro btt ct h1 h2
    simp [feed_price_target, h1, h2]
  · have h : budget_target_total .medium = 1800 := by
      show ((1000 : ℝ) + 3000) / 2 * 0.9 = 1800
      norm_num
    rw [h]
    show feed_price_target 1800 ⟨0, 0⟩ = 1530
    simp only [feed_price_target]
    norm_num
  · intro db sid ps wo now quiz hq hmed
    simp only [get_feed, hq]
    refine ⟨_, rfl, ?_⟩
    show budget_target_total quiz.budget = 1800
    rw [hmed]
    show ((1000 : ℝ) + 3000) / 2 * 0.9 = 1800
    norm_num

/-- Witness for C9 on a concrete database: the one-product store `db0`
rejects a negative delta, and add-2-then-add-(−1) leaves quantity 2. -/
theorem add_to_cart_negative_rejected_witness :
    add_to_cart db0 1 "A" (-3) 7 = .error .invalidQuantity
    ∧ ∃ db₁, add_to_cart db0 1 "A" 2 5 = .ok db₁
        ∧ add_to_cart db₁ 1 "A" (-1) 6 = .error .invalidQuantity
        ∧ cartQty db₁ 1 "A" = some 2 := by
  refine ⟨add_to_cart_negative_rejected.1 db0 1 "A" (-3) 7 (by decide),
    add_to_cart_negative_rejected.2 db0 1 "A" rowA 500 5 6 ?_ ?_ ?_⟩
  · show List.find? _ [rowA] = some rowA
    simp [rowA]
  · rfl
  · intro r hr
    simp [db0] at hr

/-- Witness for C8 on a concrete database with no prior event row. -/
theorem record_reaction_idempotent_witness :
    ∃ db₁ db₂, record_reaction db0 1 "A" "like" 3 = .ok db₁
      ∧ record_reaction db₁ 1 "A" "like" 4 = .ok db₂
      ∧ eventsFor db₂ 1 "A" = [⟨1, "A", some "like", 3⟩] :=
  record_reaction_idempotent.1 db0 1 "A" 3 4 rfl

/-- Witness for C7 on a concrete database whose stored quiz selects the
medium budget bucket and whose cart is empty. -/
theorem budget_target_empty_cart_witness :
    feed_price_target (budget_target_total .medium) ⟨0, 0⟩ = budget_target_total .medium * 0.85
    ∧ ∃ r, get_feed db0 1 1 none 0 = .ok r ∧ r.2.budget_target_total = 1800 := by
  exact ⟨budget_target_empty_cart.2.2.2.1 (budget_target_total .medium) ⟨0, 0⟩ rfl rfl,
    budget_target_empty_cart.2.2.2.2.2 db0 1 1 none 0 quizMixed rfl rfl⟩

/-! ### Relevance score bounds (C2) -/

lemma calculate_session_score_eq (product : ProductRow) (quiz : QuizAnswers)
    (w : Weights) (pt tw : ℝ) (ar : ℝ × ℝ) (cf : List String) (prefs : Preferences) :
    calculate_session_score product quiz w pt tw ar cf prefs
    = (if 0 < totalWeight w then
        (priceContribution w.price (effPrice product) pt tw
         + abvContribution w.abv product.abv_percent ar
         + categoryContribution w.category quiz.drink_type (attrsOf product).color
             (lowerStr (product.category_path.getD "")) cf
         + ratingContribution w.rating (effRating product) (effRatingCount product)
         + popularityContribution w.popularity (effRatingCount product)
         + behaviorContribution w.behavior product (effPrice product) product.abv_percent prefs)
          / totalWeight w
       else 0) := rfl

lemma priceContribution_bound (w price pt tw : ℝ) (hw : 0 ≤ w) :
    0 ≤ priceContribution w price pt tw ∧ priceContribution w price pt tw ≤ w := by
  unfold priceContribution
  split_ifs with h
  · have hd : (0 : ℝ) < max (pt * 0.5) (max tw 1) :=
      lt_of_lt_of_le one_pos (le_trans (le_max_right tw 1) (le_max_right _ _))
    have h0 : 0 ≤ |price - pt| / max (pt * 0.5) (max tw 1) :=
      div_nonneg (abs_nonneg _) hd.le
    have hmin0 : 0 ≤ min 1 (|price - pt| / max (pt * 0.5) (max tw 1)) :=
      le_min zero_le_one h0
    have hmin1 : min 1 (|price - pt| / max (pt * 0.5) (max tw 1)) ≤ 1 := min_le_left _ _
    constructor
    · exact mul_nonneg (by linarith) hw
    · nlinarith
  · exact ⟨le_refl 0, hw⟩

lemma abvContribution_bound (w : ℝ) (abv : Option ℝ) (ar : ℝ × ℝ) (hw : 0 ≤ w) :
    0 ≤ abvContribution w abv ar ∧ abvContribution w abv ar ≤ w := by
  unfold abvContribution
  rcases abv with _ | a
  · exact ⟨le_refl 0, hw⟩
  · dsimp only
    split_ifs with h1 h2
    · exact ⟨hw, le_refl w⟩
    · have hd : 0 ≤ min |a - ar.1| |a - ar.2| := le_min (abs_nonneg _) (abs_nonneg _)
      have hx : max 0 (1 - min |a - ar.1| |a - ar.2| / 7) ≤ 1 := by
        apply max_le (by norm_num)
        have : 0 ≤ min |a - ar.1| |a - ar.2| / 7 := by positivity
        linarith
      have hx0 : 0 ≤ max 0 (1 - min |a - ar.1| |a - ar.2| / 7) := le_max_left _ _
      exact ⟨mul_nonneg hx0 hw, by nlinarith⟩
    · exact ⟨le_refl 0, hw⟩

lemma categoryContribution_bound (w : ℝ) (dt : DrinkType) (color : Option String)
    (cp : String) (cf : List String) (hw : 0 ≤ w) :
    0 ≤ categoryContribution w dt color cp cf ∧ categoryContribution w dt color cp cf ≤ w := by
  unfold categoryContribution
  split_ifs <;> constructor <;> first
    | exact le_refl w
    | exact hw
    | exact le_refl 0
    | nlinarith

lemma ratingContribution_bound (w : ℝ) (rating : Option ℝ) (count : ℕ) (hw : 0 ≤ w)
    (hr : ∀ r, rating = some r → 0 ≤ r) :
    0 ≤ ratingContribution w rating count ∧ ratingContribution w rating count ≤ w := by
  unfold ratingContribution
  rcases rating with _ | r
  · dsimp only
    split_ifs
    · exact ⟨by positivity, by nlinarith⟩
    · exact ⟨le_refl 0, hw⟩
  · dsimp only
    split_ifs
    · have hr0 : 0 ≤ r := hr r rfl
      have hb : 0 ≤ confidenceBoost count := by
        unfold confidenceBoost
        exact le_min zero_le_one (by positivity)
      have hs0 : 0 ≤ ratingSubScore r count := by
        unfold ratingSubScore
        exact le_min zero_le_one (by linarith)
      have hs1 : ratingSubScore r count ≤ 1 := min_le_left _ _
      exact ⟨mul_nonneg hs0 hw, by nlinarith⟩
    · exact ⟨le_refl 0, hw⟩

lemma popularityContribution_bound (w : ℝ) (count : ℕ) (hw : 0 ≤ w) :
    0 ≤ popularityContribution w count ∧ popularityContribution w count ≤ w := by
  unfold popularityContribution
  split_ifs with h
  · have hlog : 0 ≤ Real.log ((count : ℝ) + 1) := by
      apply Real.log_nonneg
      have : (0 : ℝ) ≤ (count : ℝ) := Nat.cast_nonneg count
      linarith
    have hlog100 : 0 < Real.log 100 := Real.log_pos (by norm_num)
    have h0 : 0 ≤ min 1 (Real.log ((count : ℝ) + 1) / Real.log 100) :=
      le_min zero_le_one (div_nonneg hlog hlog100.le)
    have h1 : min 1 (Real.log ((count : ℝ) + 1) / Real.log 100) ≤ 1 := min_le_left _ _
    exact ⟨mul_nonneg h0 hw, by nlinarith⟩
  · exact ⟨le_refl 0, hw⟩

lemma behaviorScore_nonneg (p : ProductRow) (price : ℝ) (abv : Option ℝ)
    (prefs : Preferences) : 0 ≤ behaviorScore p price abv prefs := by
  unfold behaviorScore
  have t6 : (0 : ℝ) ≤ (match prefs.price_median with
      | some m => if m ≠ 0 then max 0 (1 - min 1 (|price - m| / max (m * 0.5) 300)) * 0.2 else 0
      | none => 0) := by
    rcases prefs.price_median with _ | m
    · exact le_refl 0
    · dsimp only
      split_ifs
      · exact mul_nonneg (le_max_left _ _) (by norm_num)
      · exact le_refl 0
  have t7 : (0 : ℝ) ≤ (match prefs.abv_median with
      | some m => max 0 (1 - min 1 (|abv.getD 0 - m| / 5)) * 0.1
      | none => 0) := by
    rcases prefs.abv_median with _ | m
    · exact le_refl 0
    · exact mul_nonneg (le_max_left _ _) (by norm_num)
  have t1 : (0 : ℝ) ≤ if truthyMem p.country prefs.top_countries then 0.3 else 0 := by
    split_ifs <;> norm_num
  have t2 : (0 : ℝ) ≤ if truthyMem p.producer prefs.top_producers then 0.2 else 0 := by
    split_ifs <;> norm_num
  have t3 : (0 : ℝ) ≤ if optMem (attrsOf p).color prefs.colors then 0.15 else 0 := by
    split_ifs <;> norm_num
  have t4 : (0 : ℝ) ≤ if optMem (attrsOf p).grape prefs.grapes then 0.1 else 0 := by
    split_ifs <;> norm_num
  have t5 : (0 : ℝ) ≤ if optMem (attrsOf p).sugar prefs.sugars then 0.05 else 0 := by
    split_ifs <;> norm_num
  linarith

lemma behaviorContribution_bound (w : ℝ) (p : ProductRow) (price : ℝ) (abv : Option ℝ)
    (prefs : Preferences) (hw : 0 ≤ w) :
    0 ≤ behaviorContribution w p price abv prefs
    ∧ behaviorContribution w p price abv prefs ≤ w := by
  unfold behaviorContribution
  split_ifs with h
  · have h0 : 0 ≤ min 1 (behaviorScore p price abv prefs) :=
      le_min zero_le_one (behaviorScore_nonneg p price abv prefs)
    have h1 : min 1 (behaviorScore p price abv prefs) ≤ 1 := min_le_left _ _
    exact ⟨mul_nonneg h0 hw, by nlinarith⟩
  · exact ⟨le_refl 0, hw⟩

/-- C2: with a non-negative weight map and a product whose stored rating (if
any) is non-negative, `_calculate_session_score` always returns a value in
`[0, 1]`; with a zero total weight it returns 0 instead of dividing by
zero (and a score of 0 is an ordinary value, not an error). -/
theorem session_score_unit_interval (product : ProductRow) (quiz : QuizAnswers)
    (w : Weights) (pt tw : ℝ) (ar : ℝ × ℝ) (cf : List String) (prefs : Preferences)
    (hw : 0 ≤ w.price ∧ 0 ≤ w.abv ∧ 0 ≤ w.category ∧ 0 ≤ w.rating
      ∧ 0 ≤ w.popularity ∧ 0 ≤ w.behavior)
    (hr : ∀ r, product.rating_value = some r → 0 ≤ r) :
    0 ≤ calculate_session_score product quiz w pt tw ar cf prefs
    ∧ calculate_session_score product quiz w pt tw ar cf prefs ≤ 1
    ∧ (totalWeight w = 0 → calculate_session_score product quiz w pt tw ar cf prefs = 0) := by
  obtain ⟨h1, h2, h3, h4, h5, h6⟩ := hw
  have hrr : ∀ r, effRating product = some r → 0 ≤ r := by
    intro r h
    unfold effRating at h
    rcases hp : product.rating_value with _ | v
    · rw [hp] at h
      cases h
    · rw [hp] at h
      dsimp only at h
      by_cases hv : v = 0
      · rw [if_pos hv] at h
        cases h
      · rw [if_neg hv] at h
        injection h with hvr
        subst hvr
        exact hr v hp
  have B1 := priceContribution_bound w.price (effPrice product) pt tw h1
  have B2 := abvContribution_bound w.abv product.abv_percent ar h2
  have B3 := categoryContribution_bound w.category quiz.drink_type (attrsOf product).color
    (lowerStr (product.category_path.getD "")) cf h3
  have B4 := ratingContribution_bound w.rating (effRating product) (effRatingCount product) h4 hrr
  have B5 := popularityContribution_bound w.popularity (effRatingCount product) h5
  have B6 := behaviorContribution_bound w.behavior product (effPrice product)
    product.abv_percent prefs h6
  rw [calculate_session_score_eq]
  unfold totalWeight
  split_ifs with htw
  · refine ⟨?_, ?_, ?_⟩
    · apply div_nonneg ?_ htw.le
      linarith [B1.1, B2.1, B3.1, B4.1, B5.1, B6.1]
    · rw [div_le_one htw]
      linarith [B1.2, B2.2, B3.2, B4.2, B5.2, B6.2]
    · intro h0
      rw [h0] at htw
      exact absurd htw (lt_irrefl 0)
  · exact ⟨le_refl 0, zero_le_one, fun _ => rfl⟩

/-- Witness for C2: the default weight map and an unrated, unpriced product
still score inside the unit interval. -/
theorem session_score_unit_interval_witness :
    0 ≤ calculate_session_score rowNoPrice quizMixed DEFAULT_WEIGHTS 0 0 (0, 0) [] prefs0
    ∧ calculate_session_score rowNoPrice quizMixed DEFAULT_WEIGHTS 0 0 (0, 0) [] prefs0 ≤ 1 := by
  have h := session_score_unit_interval rowNoPrice quizMixed DEFAULT_WEIGHTS 0 0 (0, 0) [] prefs0
    (by refine ⟨?_, ?_, ?_, ?_, ?_, ?_⟩ <;> norm_num [DEFAULT_WEIGHTS])
    (by intro r hrv; rw [show rowNoPrice.rating_value = some 5 from rfl] at hrv; cases hrv; norm_num)
  exact ⟨h.1, h.2.1⟩

/-! ### Denominator of the relevance score (C3) and the rating boost (C4) -/

/-- C3 counterexample: for a candidate with no price, unit weights on price
and rating and a perfect rating, the code returns 1/2 — the missing price's
weight stays in the denominator — while the spec's applied-weights reading
returns 1. -/
theorem session_score_denominator_counterexample :
    calculate_session_score rowNoPrice quizMixed wPriceRating 0 0 (0, 0) [] prefs0 = 1 / 2
    ∧ specAppliedWeightScore rowNoPrice quizMixed wPriceRating 0 0 (0, 0) [] prefs0 = 1
    ∧ (1 / 2 : ℝ) ≠ 1 := by
  have hP : priceContribution wPriceRating.price (effPrice rowNoPrice) 0 0 = 0 := by
    simp [priceContribution, effPrice, rowNoPrice]
  have hA : abvContribution wPriceRating.abv rowNoPrice.abv_percent (0, 0) = 0 := by
    simp [abvContribution, rowNoPrice]
  have hC : categoryContribution wPriceRating.category quizMixed.drink_type
      (attrsOf rowNoPrice).color (lowerStr (rowNoPrice.category_path.getD "")) [] = 0 := by
    simp [categoryContribution, quizMixed, wPriceRating]
  have hR : ratingContribution wPriceRating.rating (effRating rowNoPrice)
      (effRatingCount rowNoPrice) = 1 := by
    have h5 : effRating rowNoPrice = some 5 := by
      simp [effRating, rowNoPrice]
    have h0 : effRatingCount rowNoPrice = 0 := rfl
    rw [h5, h0]
    norm_num [ratingContribution, ratingSubScore, confidenceBoost, wPriceRating, min_def]
  have hPop : popularityContribution wPriceRating.popularity (effRatingCount rowNoPrice) = 0 := by
    simp [popularityContribution, wPriceRating]
  have hB : behaviorContribution wPriceRating.behavior rowNoPrice (effPrice rowNoPrice)
      rowNoPrice.abv_percent prefs0 = 0 := by
    simp [behaviorContribution, wPriceRating]
  have hW : totalWeight wPriceRating = 2 := by
    norm_num [totalWeight, wPriceRating]
  refine ⟨?_, ?_, by norm_num⟩
  · rw [calculate_session_score_eq, hW, hP, hA, hC, hR, hPop, hB]
    norm_num
  · unfold specAppliedWeightScore
    dsimp only
    rw [hP, hA, hC, hR, hPop, hB]
    have hd1 : ¬(0 < effPrice rowNoPrice ∧ 0 < wPriceRating.price) := by
      simp [effPrice, rowNoPrice]
    have hd2 : ¬(rowNoPrice.abv_percent ≠ none ∧ 0 < wPriceRating.abv) := by
      simp [rowNoPrice]
    have hd4 : 0 < wPriceRating.rating := by norm_num [wPriceRating]
    have hd5 : ¬(effRatingCount rowNoPrice ≠ 0 ∧ 0 < wPriceRating.popularity) := by
      simp [effRatingCount, rowNoPrice]
    have hd6 : ¬(0 < wPriceRating.behavior) := by norm_num [wPriceRating]
    rw [if_neg hd1, if_neg hd2, if_pos hd4, if_neg hd5, if_neg hd6]
    norm_num [wPriceRating]

/-- C3 amended: the score is the sum of the six block contributions divided
by the sum of ALL six weights — a missing attribute contributes 0 to the
numerator, but its weight still counts in the denominator, so missing
attributes do lower the score. -/
theorem session_score_denominator_amended (product : ProductRow) (quiz : QuizAnswers)
    (w : Weights) (pt tw : ℝ) (ar : ℝ × ℝ) (cf : List String) (prefs : Preferences)
    (htw : 0 < totalWeight w) :
    calculate_session_score product quiz w pt tw ar cf prefs * totalWeight w
      = priceContribution w.price (effPrice product) pt tw
        + abvContribution w.abv product.abv_percent ar
        + categoryContribution w.category quiz.drink_type (attrsOf product).color
            (lowerStr (product.category_path.getD "")) cf
        + ratingContribution w.rating (effRating product) (effRatingCount product)
        + popularityContribution w.popularity (effRatingCount product)
        + behaviorContribution w.behavior product (effPrice product) product.abv_percent prefs
    ∧ (product.price_current = none → priceContribution w.price (effPrice product) pt tw = 0)
    ∧ (product.abv_percent = none → abvContribution w.abv product.abv_percent ar = 0)
    ∧ totalWeight w = w.price + w.abv + w.category + w.rating + w.popularity + w.behavior := by
  refine ⟨?_, ?_, ?_, rfl⟩
  · rw [calculate_session_score_eq, if_pos htw, div_mul_cancel₀]
    exact ne_of_gt htw
  · intro h
    unfold priceContribution effPrice
    rw [h]
    simp
  · intro h
    rw [h]
    rfl

/-- Witness for the amended C3 at a concrete missing-price candidate. -/
theorem session_score_denominator_amended_witness :
    calculate_session_score rowNoPrice quizMixed wPriceRating 0 0 (0, 0) [] prefs0
        * totalWeight wPriceRating
      = priceContribution wPriceRating.price (effPrice rowNoPrice) 0 0
        + abvContribution wPriceRating.abv rowNoPrice.abv_percent (0, 0)
        + categoryContribution wPriceRating.category quizMixed.drink_type
            (attrsOf rowNoPrice).color (lowerStr (rowNoPrice.category_path.getD "")) []
        + ratingContribution wPriceRating.rating (effRating rowNoPrice) (effRatingCount rowNoPrice)
        + popularityContribution wPriceRating.popularity (effRatingCount rowNoPrice)
        + behaviorContribution wPriceRating.behavior rowNoPrice (effPrice rowNoPrice)
            rowNoPrice.abv_percent prefs0
    ∧ (rowNoPrice.price_current = none →
        priceContribution wPriceRating.price (effPrice rowNoPrice) 0 0 = 0)
    ∧ (rowNoPrice.abv_percent = none →
        abvContribution wPriceRating.abv rowNoPrice.abv_percent (0, 0) = 0)
    ∧ totalWeight wPriceRating = wPriceRating.price + wPriceRating.abv + wPriceRating.category
        + wPriceRating.rating + wPriceRating.popularity + wPriceRating.behavior :=
  session_score_denominator_amended rowNoPrice quizMixed wPriceRating 0 0 (0, 0) [] prefs0
    (by norm_num [totalWeight, wPriceRating])

/-- C4 counterexample: the code's confidence boost is capped at 1.0, not
0.2 — a rating of 3.0 with 250 reviews yields sub-score 1 (and full-function
score 1), while the spec's `min(0.2, …)` formula yields 4/5; and an item
with zero reviews but a rating of 4.0 gets sub-score 4/5, not the flat
0.4 the claim prescribes for every zero-review item. -/
theorem rating_boost_counterexample :
    calculate_session_score rowR3 quizMixed wRatingOnly 0 0 (0, 0) [] prefs0 = 1
    ∧ ratingSubScore 3 250 = 1
    ∧ min 1 ((3 : ℝ) / 5 + specConfidenceBoost 250) = 4 / 5
    ∧ ((1 : ℝ) ≠ 4 / 5)
    ∧ ratingContribution 1 (some 4) 0 = 4 / 5
    ∧ ((4 / 5 : ℝ) ≠ 0.4 * 1) := by
  have hsub : ratingSubScore 3 250 = 1 := by
    norm_num [ratingSubScore, confidenceBoost, min_def]
  refine ⟨?_, hsub, ?_, by norm_num, ?_, by norm_num⟩
  · have hP : priceContribution wRatingOnly.price (effPrice rowR3) 0 0 = 0 := by
      simp [priceContribution, wRatingOnly]
    have hA : abvContribution wRatingOnly.abv rowR3.abv_percent (0, 0) = 0 := by
      simp [abvContribution, rowR3]
    have hC : categoryContribution wRatingOnly.category quizMixed.drink_type
        (attrsOf rowR3).color (lowerStr (rowR3.category_path.getD "")) [] = 0 := by
      simp [categoryContribution, quizMixed, wRatingOnly]
    have hR : ratingContribution wRatingOnly.rating (effRating rowR3) (effRatingCount rowR3) = 1 := by
      have h3 : effRating rowR3 = some 3 := by
        simp [effRating, rowR3]
      have h250 : effRatingCount rowR3 = 250 := rfl
      rw [h3, h250]
      have : (0 : ℝ) < wRatingOnly.rating := by norm_num [wRatingOnly]
      rw [show ratingContribution wRatingOnly.rating (some 3) 250
          = ratingSubScore 3 250 * wRatingOnly.rating from by
        unfold ratingContribution
        dsimp only
        rw [if_pos this]]
      rw [hsub]
      norm_num [wRatingOnly]
    have hPop : popularityContribution wRatingOnly.popularity (effRatingCount rowR3) = 0 := by
      simp [popularityContribution, wRatingOnly]
    have hB : behaviorContribution wRatingOnly.behavior rowR3 (effPrice rowR3)
        rowR3.abv_percent prefs0 = 0 := by
      simp [behaviorContribution, wRatingOnly]
    have hW : totalWeight wRatingOnly = 1 := by
      norm_num [totalWeight, wRatingOnly]
    rw [calculate_session_score_eq, hW, hP, hA, hC, hR, hPop, hB]
    norm_num
  · norm_num [specConfidenceBoost, min_def]
  · norm_num [ratingContribution, ratingSubScore, confidenceBoost, min_def]

/-- C4 amended: for a present (truthy) rating the sub-score is
`min(1, rating/5 + min(1.0, rating_count/50 × 0.2))`; only an item whose
rating value is missing or zero gets the flat 0.4, regardless of its review
count; the 4.5-rating / 60-review scenario still yields sub-score 1.0 and
contribution 0.2 at weight 0.2. -/
theorem rating_boost_amended (r : ℝ) (n : ℕ) (w : ℝ) (hw : 0 < w) :
    ratingContribution w (some r) n = min 1 (r / 5 + min 1 ((n : ℝ) / 50 * 0.2)) * w
    ∧ ratingContribution w none n = 0.4 * w
    ∧ ratingSubScore 4.5 60 = 1
    ∧ ratingContribution 0.2 (some 4.5) 60 = 0.2 := by
  have hsub : ratingSubScore 4.5 60 = 1 := by
    norm_num [ratingSubScore, confidenceBoost, min_def]
  refine ⟨?_, ?_, hsub, ?_⟩
  · unfold ratingContribution ratingSubScore confidenceBoost
    dsimp only
    rw [if_pos hw]
  · unfold ratingContribution
    dsimp only
    rw [if_pos hw]
  · rw [show ratingContribution 0.2 (some 4.5) 60 = ratingSubScore 4.5 60 * 0.2 from by
      unfold ratingContribution
      dsimp only
      rw [if_pos (by norm_num : (0 : ℝ) < 0.2)]]
    rw [hsub]
    norm_num

/-- Witness for the amended C4 at a concrete rating, count and weight. -/
theorem rating_boost_amended_witness :
    ratingContribution 1 (some 2) 10 = min 1 ((2 : ℝ) / 5 + min 1 (((10 : ℕ) : ℝ) / 50 * 0.2)) * 1
    ∧ ratingContribution 1 none 10 = 0.4 * 1
    ∧ ratingSubScore 4.5 60 = 1
    ∧ ratingContribution 0.2 (some 4.5) 60 = 0.2 :=
  rating_boost_amended 2 10 1 (by norm_num)

/-! ### The diversity selector's greedy step (C5) and page shape (C6) -/

lemma pick_best_mem (adj : Product → ℝ) (c : Product) (cs : List Product) :
    pick_best adj c cs ∈ c :: cs := by
  unfold pick_best
  induction cs generalizing c with
  | nil => simp
  | cons x xs ih =>
    simp only [List.foldl_cons]
    rcases List.mem_cons.1 (ih (if adj c < adj x then x else c)) with h | h
    · rw [h]
      split_ifs <;> simp
    · exact List.mem_cons_of_mem c (List.mem_cons_of_mem x h)

lemma pick_best_le (adj : Product → ℝ) (c : Product) (cs : List Product) :
    ∀ y ∈ c :: cs, adj y ≤ adj (pick_best adj c cs) := by
  unfold pick_best
  induction cs generalizing c with
  | nil =>
    intro y hy
    rcases List.mem_singleton.1 hy with rfl
    exact le_refl _
  | cons x xs ih =>
    intro y hy
    simp only [List.foldl_cons]
    have hc : adj c ≤ adj (if adj c < adj x then x else c) := by
      split_ifs with h
      · exact h.le
      · exact le_refl _
    have hx : adj x ≤ adj (if adj c < adj x then x else c) := by
      split_ifs with h
      · exact le_refl _
      · exact not_lt.1 h
    have hacc := ih (if adj c < adj x then x else c)
    rcases List.mem_cons.1 hy with rfl | hy'
    · exact le_trans hc (hacc _ (List.mem_cons_self _ _))
    · rcases List.mem_cons.1 hy' with rfl | hy''
      · exact le_trans hx (hacc _ (List.mem_cons_self _ _))
      · exact hacc y (List.mem_cons_of_mem _ hy'')

lemma pick_best_first (adj : Product → ℝ) (c : Product) (cs : List Product) :
    ∃ l₁ l₂, c :: cs = l₁ ++ pick_best adj c cs :: l₂
      ∧ ∀ y ∈ l₁, adj y < adj (pick_best adj c cs) := by
  induction cs generalizing c with
  | nil =>
    exact ⟨[], [], rfl, by simp⟩
  | cons x xs ih =>
    have hstep : pick_best adj c (x :: xs) = pick_best adj (if adj c < adj x then x else c) xs := by
      unfold pick_best
      simp only [List.foldl_cons]
    by_cases h : adj c < adj x
    · obtain ⟨l₁, l₂, hsplit, hlt⟩ := ih x
      rw [if_pos h] at hstep
      refine ⟨c :: l₁, l₂, ?_, ?_⟩
      · rw [hstep, List.cons_append, hsplit]
      · intro y hy
        rcases List.mem_cons.1 hy with rfl | hy'
        · rw [hstep]
          exact lt_of_lt_of_le h (pick_best_le adj x xs x (List.mem_cons_self _ _))
        · rw [hstep]
          exact hlt y hy'
    · obtain ⟨l₁, l₂, hsplit, hlt⟩ := ih c
      rw [if_neg h] at hstep
      rcases l₁ with _ | ⟨z, l₁'⟩
      · simp only [List.nil_append] at hsplit
        obtain ⟨hc, hl2⟩ := List.cons_eq_cons.1 hsplit
        refine ⟨[], x :: l₂, ?_, by simp⟩
        simp only [List.nil_append]
        rw [hstep, ← hc, ← hl2]
      · simp only [List.cons_append] at hsplit
        obtain ⟨hz, hxs⟩ := List.cons_eq_cons.1 hsplit
        rw [← hz] at hlt
        refine ⟨c :: x :: l₁', l₂, ?_, ?_⟩

        · rw [hstep]
          simp only [List.cons_append]
          rw [← hxs]
        · intro y hy
          rw [hstep]
          rcases List.mem_cons.1 hy with rfl | hy'
          · exact hlt y (List.mem_cons_self _ _)
          · rcases List.mem_cons.1 hy' with rfl | hy''
            · have hcle : adj y ≤ adj c := not_lt.1 h
              exact lt_of_le_of_lt hcle (hlt c (List.mem_cons_self _ _))
            · exact hlt y (List.mem_cons_of_mem _ hy'')

/-- C5: one step of the diversity selection loop: the head of the result is
the first candidate maximizing the adjusted score; the adjusted score is
relevance − (producer_repeats × 0.15 + country_repeats × 0.10 +
price_tier_repeats × 0.05) × penalty_scale; the winner's counters are
incremented and it is removed from the remaining pool; `penalty_scale` is
1.2 exactly for groups of four or more, and the price tiers are the four
fixed bands <500, <1500, <3000, ≥3000. -/
theorem diversity_selection_step (penalty_scale : ℝ) (usedP : Option String → ℕ)
    (usedC usedR : String → ℕ) (n : ℕ) (c : Product) (cs : List Product) :
    (diversity_go penalty_scale usedP usedC usedR (n + 1) (c :: cs)
      = pick_best (adjusted_score penalty_scale usedP usedC usedR) c cs
        :: diversity_go penalty_scale
            (bumpOptCounter usedP (pick_best (adjusted_score penalty_scale usedP usedC usedR) c cs).producer)
            (bumpCountry usedC (pick_best (adjusted_score penalty_scale usedP usedC usedR) c cs).country)
            (bumpCounter usedR (price_range_of (pick_best (adjusted_score penalty_scale usedP usedC usedR) c cs).price_current))
            n ((c :: cs).erase (pick_best (adjusted_score penalty_scale usedP usedC usedR) c cs)))
    ∧ pick_best (adjusted_score penalty_scale usedP usedC usedR) c cs ∈ c :: cs
    ∧ (∀ y ∈ c :: cs, adjusted_score penalty_scale usedP usedC usedR y
        ≤ adjusted_score penalty_scale usedP usedC usedR
            (pick_best (adjusted_score penalty_scale usedP usedC usedR) c cs))
    ∧ (∃ l₁ l₂, c :: cs = l₁ ++ pick_best (adjusted_score penalty_scale usedP usedC usedR) c cs :: l₂
        ∧ ∀ y ∈ l₁, adjusted_score penalty_scale usedP usedC usedR y
            < adjusted_score penalty_scale usedP usedC usedR
                (pick_best (adjusted_score penalty_scale usedP usedC usedR) c cs))
    ∧ (∀ x : Product, adjusted_score penalty_scale usedP usedC usedR x
        = x.relevance_score
          - ((usedP x.producer : ℝ) * 0.15 + (countryRepeat usedC x.country : ℝ) * 0.10
             + (usedR (price_range_of x.price_current) : ℝ) * 0.05) * penalty_scale)
    ∧ (∀ q : QuizAnswers, (4 ≤ q.people_count → feed_penalty_scale q = 1.2)
        ∧ (q.people_count < 4 → feed_penalty_scale q = 1))
    ∧ (∀ p : ℝ, (p < 500 → price_range_of p = "budget")
        ∧ (500 ≤ p → p < 1500 → price_range_of p = "mid-low")
        ∧ (1500 ≤ p → p < 3000 → price_range_of p = "mid-high")
        ∧ (3000 ≤ p → price_range_of p = "premium")) := by
  refine ⟨rfl, pick_best_mem _ c cs, pick_best_le _ c cs, pick_best_first _ c cs, ?_, ?_, ?_⟩
  · intro x
    unfold adjusted_score diversity_penalty countryRepeat DIVERSITY_PENALTIES
    rcases x.country with _ | s
    · dsimp only
      push_cast
      ring
    · dsimp only
      split_ifs
      all_goals (push_cast; ring)
  · intro q
    constructor
    · intro h
      unfold feed_penalty_scale
      rw [if_pos h]
    · intro h
      unfold feed_penalty_scale
      rw [if_neg (by omega)]
  · intro p
    refine ⟨?_, ?_, ?_, ?_⟩
    · intro h
      unfold price_range_of
      rw [if_pos h]
    · intro h1 h2
      unfold price_range_of
      rw [if_neg (by linarith), if_pos h2]
    · intro h1 h2
      unfold price_range_of
      rw [if_neg (by linarith), if_neg (by linarith), if_pos h2]
    · intro h
      unfold price_range_of
      rw [if_neg (by linarith), if_neg (by linarith), if_neg (by linarith)]

/-- Witness for C5 at concrete inputs: the 100-unit tier is "budget", a
one-person quiz gets penalty scale 1, and the selected head is a member of
the candidate pool. -/
theorem diversity_selection_step_witness :
    price_range_of 100 = "budget"
    ∧ feed_penalty_scale quizMixed = 1
    ∧ pick_best (adjusted_score 1 (fun _ => 0) (fun _ => 0) (fun _ => 0)) prodA [prodB]
        ∈ [prodA, prodB] := by
  refine ⟨((diversity_selection_step 1 (fun _ => 0) (fun _ => 0) (fun _ => 0) 0 prodA []).2.2.2.2.2.2
      100).1 (by norm_num),
    ((diversity_selection_step 1 (fun _ => 0) (fun _ => 0) (fun _ => 0) 0 prodA []).2.2.2.2.2.1
      quizMixed).2 (by norm_num [quizMixed]),
    (diversity_selection_step 1 (fun _ => 0) (fun _ => 0) (fun _ => 0) 0 prodA [prodB]).2.1⟩

lemma diversity_go_length (scale : ℝ) :
    ∀ (n : ℕ) (l : List Product) (uP : Option String → ℕ) (uC uR : String → ℕ),
      (diversity_go scale uP uC uR n l).length = min n l.length := by
  intro n
  induction n with
  | zero => intro l uP uC uR; simp [diversity_go]
  | succ m ih =>
    intro l uP uC uR
    rcases l with _ | ⟨c, cs⟩
    · simp [diversity_go]
    · have hmem := pick_best_mem (adjusted_score scale uP uC uR) c cs
      have herase : ((c :: cs).erase
          (pick_best (adjusted_score scale uP uC uR) c cs)).length = cs.length := by
        rw [List.length_erase_of_mem hmem]
        simp
      simp only [diversity_go, List.length_cons, ih, herase]
      omega

lemma diversity_go_subset (scale : ℝ) :
    ∀ (n : ℕ) (l : List Product) (uP : Option String → ℕ) (uC uR : String → ℕ),
      ∀ x ∈ diversity_go scale uP uC uR n l, x ∈ l := by
  intro n
  induction n with
  | zero => intro l uP uC uR x hx; simp [diversity_go] at hx
  | succ m ih =>
    intro l uP uC uR x hx
    rcases l with _ | ⟨c, cs⟩
    · simp [diversity_go] at hx
    · simp only [diversity_go] at hx
      rcases List.mem_cons.1 hx with rfl | hx'
      · exact pick_best_mem _ c cs
      · exact List.erase_subset _ _ (ih _ _ _ _ x hx')

lemma diversity_go_nodup (scale : ℝ) :
    ∀ (n : ℕ) (l : List Product) (uP : Option String → ℕ) (uC uR : String → ℕ),
      (l.map (fun p => p.sku)).Nodup →
      ((diversity_go scale uP uC uR n l).map (fun p => p.sku)).Nodup := by
  intro n
  induction n with
  | zero => intro l uP uC uR _; simp [diversity_go]
  | succ m ih =>
    intro l uP uC uR hl
    rcases l with _ | ⟨c, cs⟩
    · simp [diversity_go]
    · set best := pick_best (adjusted_score scale uP uC uR) c cs with hbest
      have hmem : best ∈ c :: cs := pick_best_mem _ c cs
      have hnodup_l : (c :: cs).Nodup := List.Nodup.of_map _ hl
      have herase_sub : List.Sublist ((c :: cs).erase best) (c :: cs) :=
        List.erase_sublist best (c :: cs)
      have herase_nodup : (((c :: cs).erase best).map (fun p => p.sku)).Nodup :=
        List.Nodup.sublist (List.Sublist.map _ herase_sub) hl
      have hinj := List.inj_on_of_nodup_map hl
      simp only [diversity_go, List.map_cons, List.nodup_cons]
      refine ⟨?_, ih _ _ _ _ herase_nodup⟩
      intro hcontra
      obtain ⟨y, hy, hysku⟩ := List.mem_map.1 hcontra
      have hy_in : y ∈ (c :: cs).erase best := diversity_go_subset scale m _ _ _ _ y hy
      have hy_ne : y ≠ best := (List.Nodup.mem_erase_iff hnodup_l).1 hy_in |>.1
      have hy_l : y ∈ c :: cs := List.erase_subset _ _ hy_in
      exact hy_ne (hinj hy_l hmem hysku)

/-- C6: for every scored candidate list and limit, the diversity selector
returns exactly `min limit candidates` items — at most `limit`, and a short
page (not an error) when candidates run out — and never repeats a sku
within one page when the candidate skus are distinct (as rows keyed by sku
always are). -/
theorem diversity_select_page_shape (ps : List Product) (limit : ℕ) (scale : ℝ) :
    (diversity_select ps limit scale).length = min limit ps.length
    ∧ ((ps.map (fun p => p.sku)).Nodup →
        ((diversity_select ps limit scale).map (fun p => p.sku)).Nodup) := by
  unfold diversity_select
  exact ⟨diversity_go_length scale limit ps _ _ _,
    fun h => diversity_go_nodup scale limit ps _ _ _ h⟩

/-- Witness for C6 on a concrete two-candidate pool with page size 1. -/
theorem diversity_select_page_shape_witness :
    (diversity_select [prodA, prodB] 1 1).length = min 1 2
    ∧ ((diversity_select [prodA, prodB] 1 1).map (fun p => p.sku)).Nodup := by
  have h := diversity_select_page_shape [prodA, prodB] 1 1
  refine ⟨h.1, h.2 ?_⟩
  show (["A", "B"] : List String).Nodup
  decide

/-! ### The feed exclusion invariant (C1) -/

lemma insertImpression_mono {rows : List EventRow} {s : SessionId} {k : Sku}
    (sid : SessionId) (sku : Sku) (t : ℕ) (h : rowsHaveKey rows s k) :
    rowsHaveKey (insertImpression rows sid sku t) s k := by
  unfold insertImpression
  split_ifs
  · exact h
  · obtain ⟨e, he, hp⟩ := h
    exact ⟨e, List.mem_append_left _ he, hp⟩

lemma insertImpression_key (rows : List EventRow) (sid : SessionId) (sku : Sku) (t : ℕ) :
    rowsHaveKey (insertImpression rows sid sku t) sid sku := by
  unfold insertImpression
  split_ifs with h
  · obtain ⟨e, he, hp⟩ := List.any_eq_true.1 h
    exact ⟨e, he, by simpa using hp⟩
  · exact ⟨⟨sid, sku, none, t⟩, List.mem_append_right _ (List.mem_singleton.2 rfl), rfl, rfl⟩

lemma log_impressions_mono {s : SessionId} {k : Sku} (sid : SessionId) (t : ℕ) :
    ∀ (skus : List Sku) (rows : List EventRow), rowsHaveKey rows s k →
      rowsHaveKey (log_impressions rows sid skus t) s k := by
  intro skus
  induction skus with
  | nil => intro rows h; exact h
  | cons x xs ih =>
    intro rows h
    exact ih (insertImpression rows sid x t) (insertImpression_mono sid x t h)

lemma log_impressions_key (sid : SessionId) (t : ℕ) :
    ∀ (skus : List Sku) (rows : List EventRow) (sku : Sku), sku ∈ skus →
      rowsHaveKey (log_impressions rows sid skus t) sid sku := by
  intro skus
  induction skus with
  | nil => intro rows sku h; cases h
  | cons x xs ih =>
    intro rows sku h
    rcases List.mem_cons.1 h with rfl | h'
    · exact log_impressions_mono sid t xs (insertImpression rows sid sku t)
        (insertImpression_key rows sid sku t)
    · exact ih (insertImpression rows sid x t) sku h'

lemma upsertReaction_mono {rows : List EventRow} {s : SessionId} {k : Sku}
    (sid : SessionId) (sku : Sku) (a : String) (t : ℕ) (h : rowsHaveKey rows s k) :
    rowsHaveKey (upsertReaction rows sid sku a t) s k := by
  unfold upsertReaction
  obtain ⟨e, he, hp⟩ := h
  split_ifs
  · refine ⟨if e.session_id = sid ∧ e.sku = sku then {e with action := some a} else e,
      List.mem_map_of_mem _ he, ?_⟩
    split_ifs <;> exact hp
  · exact ⟨e, List.mem_append_left _ he, hp⟩

lemma diversity_select_subset {l : List Product} {n : ℕ} {s : ℝ} {x : Product}
    (h : x ∈ diversity_select l n s) : x ∈ l :=
  diversity_go_subset s n l _ _ _ x h

lemma mem_fetch_candidates {db : DB} {sid : SessionId} {quiz : QuizAnswers}
    {ar : ℝ × ℝ} {fl : ℕ} {p : ProductRow} (h : p ∈ fetch_candidates db sid quiz ar fl) :
    p ∈ db.products ∧ candidate_matches db sid quiz ar p = true := by
  unfold fetch_candidates at h
  have h1 : p ∈ List.insertionSort candBefore
      (db.products.filter (candidate_matches db sid quiz ar)) :=
    List.take_subset _ _ h
  have h2 : p ∈ db.products.filter (candidate_matches db sid quiz ar) :=
    (List.Perm.mem_iff (List.perm_insertionSort candBefore _)).1 h1
  exact ⟨List.mem_of_mem_filter h2, List.of_mem_filter h2⟩

lemma candidate_matches_no_event {db : DB} {sid : SessionId} {quiz : QuizAnswers}
    {ar : ℝ × ℝ} {p : ProductRow} (h : candidate_matches db sid quiz ar p = true) :
    ¬ hasEvent db sid p.sku := by
  intro hev
  unfold candidate_matches at h
  simp only [Bool.and_eq_true, Bool.not_eq_true'] at h
  have hany : db.events.any (fun e => decide (e.session_id = sid ∧ e.sku = p.sku)) = false :=
    h.1.2
  obtain ⟨e, he, hp⟩ := hev
  have := List.any_eq_false.1 hany e he
  simp [hp.1, hp.2] at this

lemma get_feed_ok_shape {db : DB} {sid : SessionId} {ps : ℕ} {wo : Option WeightsOverride}
    {t : ℕ} {r : DB × FeedResponse} (hok : get_feed db sid ps wo t = .ok r) :
    ∃ quiz, fetch_session_quiz db sid = some quiz
      ∧ r.1.events = log_impressions db.events sid (r.2.items.map (fun p => p.sku)) t
      ∧ ∀ x ∈ r.2.items, ∃ c ∈ db.products,
          candidate_matches db sid quiz (get_abv_range quiz.style quiz.drink_type) c = true
          ∧ x.sku = c.sku := by
  unfold get_feed at hok
  rcases hq : fetch_session_quiz db sid with _ | quiz
  · rw [hq] at hok
    cases hok
  · rw [hq] at hok
    dsimp only at hok
    cases hok
    refine ⟨quiz, rfl, rfl, ?_⟩
    intro x hx
    have hx1 := diversity_select_subset hx
    have hx2 := (List.Perm.mem_iff (List.perm_insertionSort scoreDesc _)).1 hx1
    obtain ⟨c, hc, hxc⟩ := List.mem_map.1 hx2
    obtain ⟨hcp, hcm⟩ := mem_fetch_candidates hc
    refine ⟨c, hcp, hcm, ?_⟩
    subst hxc
    rfl

lemma get_feed_page_no_event {db : DB} {sid : SessionId} {ps : ℕ}
    {wo : Option WeightsOverride} {t : ℕ} {r : DB × FeedResponse}
    (hok : get_feed db sid ps wo t = .ok r) {sku : Sku}
    (h : sku ∈ r.2.items.map (fun p => p.sku)) : ¬ hasEvent db sid sku := by
  obtain ⟨quiz, _, _, hitems⟩ := get_feed_ok_shape hok
  obtain ⟨x, hx, hxsku⟩ := List.mem_map.1 h
  obtain ⟨c, _, hcm, hxc⟩ := hitems x hx
  rw [← hxsku, hxc]
  exact candidate_matches_no_event hcm

lemma get_feed_logs_page {db : DB} {sid : SessionId} {ps : ℕ}
    {wo : Option WeightsOverride} {t : ℕ} {r : DB × FeedResponse}
    (hok : get_feed db sid ps wo t = .ok r) {sku : Sku}
    (h : sku ∈ r.2.items.map (fun p => p.sku)) : hasEvent r.1 sid sku := by
  obtain ⟨quiz, _, hev, _⟩ := get_feed_ok_shape hok
  unfold hasEvent
  rw [hev]
  exact log_impressions_key sid t _ db.events sku h

lemma add_to_cart_ok_events {db : DB} {sid : SessionId} {sku : Sku} {q : ℤ} {t : ℕ}
    {d : DB} (h : add_to_cart db sid sku q t = .ok d) : d.events = db.events := by
  unfold add_to_cart at h
  split_ifs at h
  · cases h
    rfl
  · rcases hf : db.products.find? (fun p => decide (p.sku = sku)) with _ | prow
    · rw [hf] at h
      cases h
    · rw [hf] at h
      dsimp only at h
      rcases hp : prow.price_current with _ | price
      · rw [hp] at h
        cases h
      · rw [hp] at h
        dsimp only at h
        cases h
        rfl

lemma record_reaction_ok_events {db : DB} {sid : SessionId} {sku : Sku} {a : String}
    {t : ℕ} {d : DB} (h : record_reaction db sid sku a t = .ok d) :
    d.events = upsertReaction db.events sid sku a t := by
  unfold record_reaction at h
  split_ifs at h
  · cases h
    rfl

lemma applyOp_event_mono {db : DB} {s : SessionId} {k : Sku} (op : Op) (t : ℕ)
    (h : hasEvent db s k) : hasEvent (applyOp db op t) s k := by
  rcases op with ⟨sid, ps, wo⟩ | ⟨sid, sku, a⟩ | ⟨sid, sku, q⟩ | ⟨sid, q⟩ | uid | sid
  · unfold applyOp
    dsimp only
    rcases hg : get_feed db sid ps wo t with e | r
    · simp only [hg]
      exact h
    · simp only [hg]
      obtain ⟨quiz, _, hev, _⟩ := get_feed_ok_shape hg
      unfold hasEvent
      rw [hev]
      exact log_impressions_mono sid t _ db.events h
  · unfold applyOp
    dsimp only
    rcases hg : record_reaction db sid sku a t with e | d
    · simp only [hg]
      exact h
    · simp only [hg]
      unfold hasEvent
      rw [record_reaction_ok_events hg]
      exact upsertReaction_mono sid sku a t h
  · unfold applyOp
    dsimp only
    rcases hg : add_to_cart db sid sku q t with e | d
    · simp only [hg]
      exact h
    · simp only [hg]
      unfold hasEvent
      rw [add_to_cart_ok_events hg]
      exact h
  · exact h
  · exact h
  · exact h

lemma runDB_event_mono {s : SessionId} {k : Sku} :
    ∀ (ops : List (Op × ℕ)) (db : DB), hasEvent db s k → hasEvent (runDB db ops) s k := by
  intro ops
  induction ops with
  | nil => intro db h; exact h
  | cons o os ih =>
    intro db h
    exact ih (applyOp db o.1 o.2) (applyOp_event_mono o.1 o.2 h)

lemma runDB_append (db : DB) (l₁ l₂ : List (Op × ℕ)) :
    runDB db (l₁ ++ l₂) = runDB (runDB db l₁) l₂ :=
  List.foldl_append _ _ l₁ l₂

/-- C1: within one session, no sku ever appears in two different feed
pages: each feed call excludes every sku that already has a
`session_events` row, logs an impression row for every sku it returns, and
no later call of any kind removes such a row — so a sku served by the
`i`-th call of a trace is absent from the page of any later feed call `j`
for the same session. -/
theorem feed_exclusion (db : DB) (ops : List (Op × ℕ)) (i j : ℕ) (sid : SessionId)
    (psi psj : ℕ) (woi woj : Option WeightsOverride) (ti tj : ℕ)
    (hij : i < j)
    (hi : ops.get? i = some (Op.feed sid psi woi, ti))
    (hj : ops.get? j = some (Op.feed sid psj woj, tj))
    (sku : Sku) (hmem : sku ∈ pageAt db ops i) :
    sku ∉ pageAt db ops j := by
  intro hmemj
  unfold pageAt at hmem hmemj
  rw [hi] at hmem
  rw [hj] at hmemj
  dsimp only [feed_page] at hmem hmemj
  rcases hgi : get_feed (runDB db (ops.take i)) sid psi woi ti with e | ri
  · rw [hgi] at hmem
    cases hmem
  rcases hgj : get_feed (runDB db (ops.take j)) sid psj woj tj with e | rj
  · rw [hgj] at hmemj
    cases hmemj
  rw [hgi] at hmem
  rw [hgj] at hmemj
  dsimp only at hmem hmemj
  have hstep : runDB db (ops.take (i + 1))
      = applyOp (runDB db (ops.take i)) (Op.feed sid psi woi) ti := by
    have htake : ops.take (i + 1) = ops.take i ++ [(Op.feed sid psi woi, ti)] := by
      rw [List.take_succ]
      congr 1
      rw [← List.get?_eq_getElem?, hi]
      rfl
    rw [htake, runDB_append]
    rfl
  have hev1 : hasEvent (runDB db (ops.take (i + 1))) sid sku := by
    rw [hstep]
    unfold applyOp
    dsimp only
    simp only [hgi]
    exact get_feed_logs_page hgi hmem
  have hsplit : ops.take j = ops.take (i + 1) ++ (ops.drop (i + 1)).take (j - (i + 1)) := by
    rw [← List.take_add]
    congr 1
    omega
  have hevj : hasEvent (runDB db (ops.take j)) sid sku := by
    rw [hsplit, runDB_append]
    exact runDB_event_mono _ _ hev1
  exact get_feed_page_no_event hgj hmemj hevj

/-- Witness for C1 on a concrete trace: a one-product store serves sku "A"
on the first feed page of session 1, and the second feed call for the same
session does not serve it again. -/
theorem feed_exclusion_witness :
    "A" ∈ pageAt db0 ops0 0 ∧ "A" ∉ pageAt db0 ops0 1 := by
  have hfs : fetch_session_quiz db0 1 = some quizMixed := rfl
  have hmatch : candidate_matches db0 1 quizMixed
      (get_abv_range quizMixed.style quizMixed.drink_type) rowA = true := by
    norm_num [candidate_matches, drinkTypeFilter, db0, rowA, quizMixed]
    simp
  have hcand : fetch_candidates db0 1 quizMixed
      (get_abv_range quizMixed.style quizMixed.drink_type)
      (1 * feed_fetch_multiplier quizMixed) = [rowA] := by
    unfold fetch_candidates
    rw [show (1 : ℕ) * feed_fetch_multiplier quizMixed = 8 from rfl,
      show db0.products = [rowA] from rfl]
    simp [hmatch, List.insertionSort, List.orderedInsert]
  have hmem : "A" ∈ pageAt db0 ops0 0 := by
    show "A" ∈ feed_page (runDB db0 (ops0.take 0)) (Op.feed 1 1 none) 0
    show "A" ∈ feed_page db0 (Op.feed 1 1 none) 0
    unfold feed_page
    dsimp only
    unfold get_feed
    rw [hfs]
    dsimp only
    rw [hcand]
    simp [diversity_select, diversity_go, pick_best, List.insertionSort, List.orderedInsert,
      to_product_model, rowA]
  exact ⟨hmem, feed_exclusion db0 ops0 0 1 1 1 1 none none 0 1 (by norm_num) rfl rfl "A" hmem⟩

end Sommelier
